import Mathlib

/-!
Verification development for the control-plane sources of the grout router:
a shallow embedding in Lean 4 of the IPv4 next-hop handlers
(modules/ip/control/nexthop.c), the port queue-assignment and
(re)configuration logic (modules/infra/control/port.c) and the VLAN
reconfiguration handler (modules/infra/control/vlan.c), together with
theorems settling the frozen claims about them.

Machine integers are modelled as `Nat` with explicit reductions modulo
powers of two where C overflow or width matters.  External collaborators
(the DPDK device facade, the route table, the worker plug/unplug helpers)
appear either as oracle parameters recording the result of each call, or
as definitions modelled from the specification when their code is not part
of the provided sources; every such definition is marked in its doc
comment.
-/

set_option autoImplicit false

/-! ## Errno constants (POSIX values) -/

def ENOENT : Nat := 2
def ENOMEM : Nat := 12
def EBUSY : Nat := 16
def EEXIST : Nat := 17
def ENODEV : Nat := 19
def EINVAL : Nat := 22
def ENOSPC : Nat := 28
def ENOSYS : Nat := 38
def EIDRM : Nat := 43
def ENOTSUP : Nat := 95
def EADDRINUSE : Nat := 98
def EMEDIUMTYPE : Nat := 124

/-! ## IPv4 next-hop table (modules/ip/control/nexthop.c) -/

/-- Modelled from the spec: next-hop flag bits.  The header defining
`BR_IP4_NH_F_*` is not part of the provided sources; the spec only
requires a bitset containing {STATIC, REACHABLE, LOCAL, LINK}, so the
four flags are modelled as distinct bits. -/
def BR_IP4_NH_F_STATIC : Nat := 1

/-- Modelled from the spec: see `BR_IP4_NH_F_STATIC`. -/
def BR_IP4_NH_F_REACHABLE : Nat := 2

/-- Modelled from the spec: see `BR_IP4_NH_F_STATIC`. -/
def BR_IP4_NH_F_LOCAL : Nat := 4

/-- Modelled from the spec: see `BR_IP4_NH_F_STATIC`. -/
def BR_IP4_NH_F_LINK : Nat := 8

/-- Modelled from the spec: the next-hop array has a fixed capacity
`MAX_NEXT_HOPS`; the value is not in the provided sources and no claim
depends on it, only on its positivity. -/
def MAX_NEXT_HOPS : Nat := 65536

/-- One record of `struct nexthop` (fields used by nexthop.c: `ip`,
`iface_id`, `lladdr`, `flags`, `ref_count`, `last_seen`).  The 6-byte
`lladdr` is modelled as a single number, so `memcpy` of the address
becomes assignment and `br_eth_addr_eq` becomes equality. -/
structure Nexthop where
  ip : Nat
  iface_id : Nat
  lladdr : Nat
  flags : Nat
  ref_count : Nat
  last_seen : Nat
deriving Repr, DecidableEq

/-- The all-zero slot produced by `memset(nh, 0, sizeof(*nh))` and by the
initial `rte_calloc` of the array. -/
def zeroNexthop : Nexthop :=
  { ip := 0, iface_id := 0, lladdr := 0, flags := 0, ref_count := 0, last_seen := 0 }

/-- State of the next-hop module: the `ip -> index` hash (`nh_hash`,
modelled as an association list in iteration order) and the dense array
`nh_array` (modelled as a total function from indices to slots). -/
structure NhState where
  hash : List (Nat × Nat)
  arr : Nat → Nexthop

/-- First-match lookup in a key/value association list, mirroring
`rte_hash_lookup` / `rte_hash_lookup_data`. -/
def hashLookup {α β : Type} [DecidableEq α] (h : List (α × β)) (k : α) : Option β :=
  match h with
  | [] => none
  | kv :: rest => if kv.1 = k then some kv.2 else hashLookup rest k

/-- Removal of a key, mirroring `rte_hash_del_key`. -/
def hashDel {α β : Type} [DecidableEq α] (h : List (α × β)) (k : α) : List (α × β) :=
  h.filter (fun kv => kv.1 ≠ k)

/-- The key index handed out by `rte_hash_add_key` for a new key: some
index not currently in use.  Which free index the DPDK hash picks is not
observable by any claim; it is modelled as one past the largest index in
use. -/
def freshIdx (used : List Nat) : Nat :=
  used.foldr max 0 + 1

/-- ip4_nexthop_lookup: hash lookup returning the slot index (the C
function also returns the slot pointer, recoverable from the index). -/
def ip4_nexthop_lookup (st : NhState) (ip : Nat) : Option Nat :=
  hashLookup st.hash ip

/-- ip4_nexthop_incref: `nh->ref_count++`. -/
def ip4_nexthop_incref (st : NhState) (idx : Nat) : NhState :=
  let nh := st.arr idx
  { st with arr := fun j => if j = idx then { nh with ref_count := nh.ref_count + 1 } else st.arr j }

/-- ip4_nexthop_decref: when `ref_count <= 1` remove the hash mapping for
`nh->ip` and zero the slot, otherwise just decrement. -/
def ip4_nexthop_decref (st : NhState) (idx : Nat) : NhState :=
  let nh := st.arr idx
  if nh.ref_count ≤ 1 then
    { hash := hashDel st.hash nh.ip,
      arr := fun j => if j = idx then zeroNexthop else st.arr j }
  else
    { st with arr := fun j => if j = idx then { nh with ref_count := nh.ref_count - 1 } else st.arr j }

/-- ip4_nexthop_lookup_add: return the existing index, or add the key to
the hash (failing with `-ENOSPC` when full) and set the new slot's `ip`
field. -/
def ip4_nexthop_lookup_add (st : NhState) (ip : Nat) : Except Int (Nat × NhState) :=
  match ip4_nexthop_lookup st ip with
  | some idx => .ok (idx, st)
  | none =>
    if st.hash.length ≥ MAX_NEXT_HOPS then
      .error (-(ENOSPC : Int))
    else
      let idx := freshIdx (st.hash.map Prod.snd)
      .ok (idx,
        { hash := st.hash ++ [(ip, idx)],
          arr := fun j => if j = idx then { st.arr idx with ip := ip } else st.arr j })

/-- One IPv4 route record.  Modelled from the spec: the route table is an
external collaborator of nexthop.c; only /32 host routes bound to a
next-hop index are relevant here. -/
structure Route where
  dest : Nat
  depth : Nat
  nh_idx : Nat
deriving Repr, DecidableEq

/-- Combined control-plane state seen by the nh handlers. -/
structure Ip4State where
  nh : NhState
  routes : List Route

/-- Modelled from the spec: `ip4_route_insert` (route module, not in the
provided sources) inserts a route bound to a next-hop index and takes a
reference on it ("nh_add inserts, then the route insert increfs");
it fails when the route already exists. -/
def ip4_route_insert (dest depth idx : Nat) (st : Ip4State) : Int × Ip4State :=
  if st.routes.any (fun r => r.dest == dest && r.depth == depth) then
    (-(EEXIST : Int), st)
  else
    (0, { nh := ip4_nexthop_incref st.nh idx, routes := st.routes ++ [⟨dest, depth, idx⟩] })

/-- Modelled from the spec: `ip4_route_delete` (route module, not in the
provided sources) removes the route and "is responsible for calling
decref, which frees the next hop when the last route releases it". -/
def ip4_route_delete (dest depth : Nat) (st : Ip4State) : Int × Ip4State :=
  match st.routes.find? (fun r => r.dest == dest && r.depth == depth) with
  | none => (-(ENOENT : Int), st)
  | some r =>
    (0, { nh := ip4_nexthop_decref st.nh r.nh_idx,
          routes := st.routes.eraseP (fun r2 => r2.dest == dest && r2.depth == depth) })

/-- Request payload of `nh4_add` (br_ip4_nh_add_req). -/
structure NhAddReq where
  host : Nat
  iface_id : Nat
  mac : Nat
  exist_ok : Bool
deriving Repr, DecidableEq

/-- nh4_add handler.  `ifaces` is the set of interface ids known to the
interface registry (`iface_from_id`); the errno produced by a failed
`iface_from_id` is not in the provided sources and is modelled as
`ENODEV` (no claim depends on its value).  The result is the `api_out`
status (0 = success). -/
def nh4_add (ifaces : List Nat) (req : NhAddReq) (st : Ip4State) : Nat × Ip4State :=
  if req.host = 0 then
    (EINVAL, st)
  else if !(ifaces.contains req.iface_id) then
    (ENODEV, st)
  else
    match ip4_nexthop_lookup st.nh req.host with
    | some idx =>
      let nh := st.nh.arr idx
      if req.exist_ok && req.iface_id == nh.iface_id && req.mac == nh.lladdr then
        (0, st)
      else
        (EEXIST, st)
    | none =>
      match ip4_nexthop_lookup_add st.nh req.host with
      | .error e => ((-e).toNat, st)
      | .ok (idx, nhst) =>
        let nh := nhst.arr idx
        let nh := { nh with
          iface_id := req.iface_id,
          lladdr := req.mac,
          flags := BR_IP4_NH_F_STATIC ||| BR_IP4_NH_F_REACHABLE }
        let nhst := { nhst with arr := fun j => if j = idx then nh else nhst.arr j }
        let (ret, st) := ip4_route_insert req.host 32 idx { st with nh := nhst }
        ((-ret).toNat, st)

/-- Request payload of `nh4_del` (br_ip4_nh_del_req). -/
structure NhDelReq where
  host : Nat
  missing_ok : Bool
deriving Repr, DecidableEq

/-- nh4_del handler: ENOENT (unless `missing_ok`) when absent, EBUSY when
LOCAL/LINK or still referenced, otherwise delete the /32 route. -/
def nh4_del (req : NhDelReq) (st : Ip4State) : Nat × Ip4State :=
  match ip4_nexthop_lookup st.nh req.host with
  | none => if req.missing_ok then (0, st) else (ENOENT, st)
  | some idx =>
    let nh := st.nh.arr idx
    if nh.flags &&& (BR_IP4_NH_F_LOCAL ||| BR_IP4_NH_F_LINK) ≠ 0 ∨ nh.ref_count > 1 then
      (EBUSY, st)
    else
      let (ret, st) := ip4_route_delete req.host 32 st
      ((-ret).toNat, st)

/-- One record of the nh4_list response (br_ip4_nh). -/
structure NhApiRecord where
  host : Nat
  iface_id : Nat
  mac : Nat
  flags : Nat
  age : Nat
deriving Repr, DecidableEq

/-- The nh4_list response: `n_nhs` counter and the record area. -/
structure NhListResp where
  n_nhs : Nat
  nhs : List NhApiRecord
deriving Repr, DecidableEq

/-- Wrapping uint64 subtraction `a - b`, as in the C expression
`nh->last_seen - rte_get_tsc_cycles()` (both operands are uint64). -/
def sub64 (a b : Nat) : Nat :=
  (a % 2 ^ 64 + (2 ^ 64 - b % 2 ^ 64)) % 2 ^ 64

/-- One response record as written by the nh4_list loop body; `now` is
`rte_get_tsc_cycles()` and `hz` is `rte_get_tsc_hz()`.  The `age` field
of `struct br_ip4_nh` is kept unreduced (its width is not in the provided
sources). -/
def nhListRecord (nh : Nexthop) (now hz : Nat) : NhApiRecord :=
  { host := nh.ip,
    iface_id := nh.iface_id,
    mac := nh.lladdr,
    flags := nh.flags,
    age := if nh.last_seen > 0 then sub64 nh.last_seen now / hz else 0 }

/-- nh4_list handler: count the hash, then iterate it, appending one
record per entry while incrementing `n_nhs`.  The `calloc` of the
response (sized for exactly `rte_hash_count` records) is modelled as
always succeeding; no claim concerns its ENOMEM path. -/
def nh4_list (st : NhState) (now hz : Nat) : NhListResp :=
  st.hash.foldl
    (fun resp kv =>
      let nh := st.arr kv.2
      { n_nhs := resp.n_nhs + 1, nhs := resp.nhs ++ [nhListRecord nh now hz] })
    { n_nhs := 0, nhs := [] }

/-! ## Port subsystem (modules/infra/control/port.c) -/

/-- Modelled from the spec: reconfig attribute mask bits.  The headers
giving the "stable wire values" are not in the provided sources, so the
bits are modelled as distinct powers of two; `IFACE_SET_ALL` is the
all-ones mask meaning initial configuration.  The common bits
(FLAGS/MTU/VRF) are shared between interface types; the type-specific
bits live in each type's own namespace of values. -/
def BR_IFACE_SET_FLAGS : Nat := 1

/-- Modelled from the spec: see `BR_IFACE_SET_FLAGS`. -/
def BR_IFACE_SET_MTU : Nat := 2

/-- Modelled from the spec: see `BR_IFACE_SET_FLAGS`. -/
def BR_IFACE_SET_VRF : Nat := 4

/-- Modelled from the spec: see `BR_IFACE_SET_FLAGS`. -/
def BR_PORT_SET_N_RXQS : Nat := 8

/-- Modelled from the spec: see `BR_IFACE_SET_FLAGS`. -/
def BR_PORT_SET_N_TXQS : Nat := 16

/-- Modelled from the spec: see `BR_IFACE_SET_FLAGS`. -/
def BR_PORT_SET_Q_SIZE : Nat := 32

/-- Modelled from the spec: see `BR_IFACE_SET_FLAGS`. -/
def BR_PORT_SET_MAC : Nat := 64

/-- Modelled from the spec: see `BR_IFACE_SET_FLAGS`. -/
def GR_VLAN_SET_PARENT : Nat := 8

/-- Modelled from the spec: see `BR_IFACE_SET_FLAGS`. -/
def GR_VLAN_SET_VLAN : Nat := 16

/-- Modelled from the spec: see `BR_IFACE_SET_FLAGS`. -/
def GR_VLAN_SET_MAC : Nat := 32

/-- Modelled from the spec: see `BR_IFACE_SET_FLAGS`. -/
def IFACE_SET_ALL : Nat := 2 ^ 64 - 1

/-- Modelled from the spec: interface flag bits (values not in the
provided sources; only distinctness matters). -/
def BR_IFACE_F_UP : Nat := 1

/-- Modelled from the spec: see `BR_IFACE_F_UP`. -/
def BR_IFACE_F_PROMISC : Nat := 2

/-- Modelled from the spec: see `BR_IFACE_F_UP`. -/
def BR_IFACE_F_ALLMULTI : Nat := 4

/-- Modelled from the spec: see `BR_IFACE_F_UP`. -/
def BR_IFACE_S_RUNNING : Nat := 1

/-- DPDK fallback ring sizes (rte_ethdev.h: both are 512). -/
def RTE_ETH_DEV_FALLBACK_RX_RINGSIZE : Nat := 512

/-- See `RTE_ETH_DEV_FALLBACK_RX_RINGSIZE`. -/
def RTE_ETH_DEV_FALLBACK_TX_RINGSIZE : Nat := 512

/-- DPDK graph burst size (build configuration default 256; it only
feeds the mbuf-pool size, which goes to the pool-creation oracle). -/
def RTE_GRAPH_BURST_SIZE : Nat := 256

/-- RSS hash mask RTE_ETH_RSS_IP | RTE_ETH_RSS_UDP | RTE_ETH_RSS_TCP of
default_port_config; the concrete DPDK bit values are immaterial here
(the masked value only feeds the rte_eth_dev_configure oracle). -/
def default_rss_hf : Nat := 0x7efc

/-- RTE_ETH_RX_OFFLOAD_CHECKSUM of default_port_config; as with
`default_rss_hf` the concrete value is immaterial. -/
def RTE_ETH_RX_OFFLOAD_CHECKSUM : Nat := 14

/-- One `struct queue_map` entry ({port_id, queue_id, enabled}). -/
structure QueueMap where
  port_id : Nat
  queue_id : Nat
  enabled : Bool
deriving Repr, DecidableEq

/-- One worker of the worker registry, with its cpu and its two ordered
queue-map vectors; the registry itself is the list of workers in
registration (iteration) order. -/
structure Worker where
  cpu_id : Nat
  rxqs : List QueueMap
  txqs : List QueueMap
deriving Repr, DecidableEq

/-- `struct iface_info_port` (the fields port.c reads or writes; the
mempool handle is reduced to whether a pool is owned). -/
structure PortInfo where
  port_id : Nat
  n_rxq : Nat
  n_txq : Nat
  rxq_size : Nat
  txq_size : Nat
  mac : Nat
  pool : Bool
  configured : Bool
deriving Repr, DecidableEq

/-- Common attributes of `struct iface` used by iface_port_reconfig.
The interface registry stores the requested common attributes into the
interface before invoking the type reconfig callback, so `flags` and
`mtu` here already hold the requested values when their mask bits are
set. -/
structure Iface where
  flags : Nat
  state : Nat
  mtu : Nat
  vrf_id : Nat
deriving Repr, DecidableEq

/-- `struct br_iface_info_port` request payload fields read by port.c. -/
structure ApiPortInfo where
  n_rxq : Nat
  n_txq : Nat
  rxq_size : Nat
  txq_size : Nat
  mac : Nat
deriving Repr, DecidableEq

/-- Fields of `struct rte_eth_dev_info` read by port_configure. -/
structure DevInfo where
  default_rxportconf_ring_size : Nat
  default_txportconf_ring_size : Nat
  flow_type_rss_offloads : Nat
  rx_offload_capa : Nat
deriving Repr, DecidableEq

/-- Oracle for every external call made by port_configure and
iface_port_reconfig: each field records the result the DPDK device
facade (or worker creation) would return.  `socket_match w` is the value
of `socket_id == SOCKET_ID_ANY || socket_id == numa_node_of_cpu(w.cpu_id)`
for the device's socket. -/
structure PortEnv where
  socket_match : Worker → Bool
  new_worker_cpu : Option Nat
  dev_info : Except Int DevInfo
  configure_ret : Int
  pool_err : Option Int
  rx_setup_ret : Nat → Int
  tx_setup_ret : Nat → Int
  stop_ret : Int
  start_ret : Int
  promisc_set_ret : Int
  promisc_get : Bool
  allmulti_set_ret : Int
  allmulti_get : Bool
  set_link_ret : Int
  link_get : Option Bool
  set_mtu_ret : Int
  get_mtu_ret : Except Int Nat
  set_mac_ret : Int
  get_mac_ret : Except Int Nat

/-- Modelled from the spec: `worker_ensure_default(socket)` (worker
module, not in the provided sources) succeeds at once if some worker
matches the socket (or the socket is unconstrained), else creates a
worker with empty queue vectors on a cpu of that node, or fails. -/
def worker_ensure_default (env : PortEnv) (ws : List Worker) : Except Int (List Worker) :=
  if ws.any env.socket_match then .ok ws
  else
    match env.new_worker_cpu with
    | some cpu => .ok (ws ++ [{ cpu_id := cpu, rxqs := [], txqs := [] }])
    | none => .error (-(ENOMEM : Int))

/-- Modelled from the spec: `port_unplug` (worker module, not in the
provided sources) marks every queue map referencing the port as
`enabled = false` across every worker; the spec gives it no failure
mode, so its return value is always 0. -/
def setEnabledIn (pid : Nat) (en : Bool) (l : List QueueMap) : List QueueMap :=
  l.map (fun q => if q.port_id = pid then { q with enabled := en } else q)

/-- See `setEnabledIn`. -/
def port_unplug (pid : Nat) (ws : List Worker) : List Worker :=
  ws.map (fun w => { w with
    rxqs := setEnabledIn pid false w.rxqs,
    txqs := setEnabledIn pid false w.txqs })

/-- Modelled from the spec: `port_plug` marks every queue map for the
port as `enabled = true`; as with `port_unplug` it always returns 0. -/
def port_plug (pid : Nat) (ws : List Worker) : List Worker :=
  ws.map (fun w => { w with
    rxqs := setEnabledIn pid true w.rxqs,
    txqs := setEnabledIn pid true w.txqs })

/-- stb_ds `arrdelswap(a, i)`: overwrite element `i` with the last
element and drop the last element. -/
def arrdelswap (l : List QueueMap) (i : Nat) : List QueueMap :=
  (l.set i (l.getD (l.length - 1) { port_id := 0, queue_id := 0, enabled := false })).dropLast

/-- The txq deduplication loop of port_queue_assign: starting at index
`i`, delete (by swap) every txq entry of this port, re-examining the
swapped-in element as the C loop does with `i--`.  The loop runs on
explicit fuel `l.length - i`, which drops by exactly one per iteration
(a deletion shortens the list, a skip advances the index), so the fuel
never runs out before the loop's own exit test. -/
def txq_purge_go (pid : Nat) : Nat → List QueueMap → Nat → List QueueMap
  | 0, l, _ => l
  | fuel + 1, l, i =>
    if h : i < l.length then
      if (l.get ⟨i, h⟩).port_id = pid then
        txq_purge_go pid fuel (arrdelswap l i) i
      else
        txq_purge_go pid fuel l (i + 1)
    else l

/-- See `txq_purge_go`. -/
def txq_purge (pid : Nat) (l : List QueueMap) (i : Nat) : List QueueMap :=
  txq_purge_go pid (l.length - i) l i

/-- Value of the C expression `(uint64_t)(1 << q)` where the literal `1`
has type `int` (32 bits), as written in port_queue_assign
(`rxq_ids |= 1 << qmap->queue_id` and `rxq_ids & (1 << rxq)`).  For
`q ≥ 31` the shift overflows the `int` and is undefined by the C
standard; this definition uses the x86-64 concretisation: the shift
count is taken modulo 32, and `1 << 31` yields INT_MIN, which
sign-extends to 0xFFFFFFFF80000000 when converted to uint64_t.  (The
accumulator `rxq_ids` is a `uint64_t` and the adjacent comment asks for
up to 64 rx queues, so the evident intent was `1ULL << q`; see the C1
theorem for the consequence.) -/
def cShl1 (q : Nat) : Nat :=
  let s := q % 32
  if s = 31 then 2 ^ 64 - 2 ^ 31 else 2 ^ s

/-- The rxq scan loop of port_queue_assign: record already-assigned rx
queues of this port in the `rxq_ids` bit accumulator and delete (by
swap) entries whose queue id is out of range.  Fuelled like
`txq_purge_go`. -/
def rxq_scan_go (pid n_rxq : Nat) : Nat → List QueueMap → Nat → Nat → List QueueMap × Nat
  | 0, l, _, bits => (l, bits)
  | fuel + 1, l, i, bits =>
    if h : i < l.length then
      let q := l.get ⟨i, h⟩
      if q.port_id = pid then
        if q.queue_id < n_rxq then
          rxq_scan_go pid n_rxq fuel l (i + 1) (bits ||| cShl1 q.queue_id)
        else
          rxq_scan_go pid n_rxq fuel (arrdelswap l i) i bits
      else
        rxq_scan_go pid n_rxq fuel l (i + 1) bits
    else (l, bits)

/-- See `rxq_scan_go`. -/
def rxq_scan (pid n_rxq : Nat) (l : List QueueMap) (i : Nat) (bits : Nat) :
    List QueueMap × Nat :=
  rxq_scan_go pid n_rxq (l.length - i) l i bits

/-- The STAILQ_FOREACH pass of port_queue_assign: for each worker purge
and re-push its single txq entry (numbered by iteration position), scan
its rxqs, and remember the position of the last worker matching the
device's socket.  Returns the updated workers, the final `rxq_ids`
accumulator and the position of the default worker (if any). -/
def pqa_pass1 (sm : Worker → Bool) (pid n_rxq : Nat) :
    List Worker → Nat → Nat → Nat → Option Nat → List Worker × Nat × Option Nat
  | [], _, _, bits, dflt => ([], bits, dflt)
  | w :: rest, idx, txq, bits, dflt =>
    let txqs1 := txq_purge pid w.txqs 0 ++ [{ port_id := pid, queue_id := txq, enabled := false }]
    let scan := rxq_scan pid n_rxq w.rxqs 0 bits
    let dflt1 := if sm w then some idx else dflt
    let rec1 := pqa_pass1 sm pid n_rxq rest (idx + 1) (txq + 1) scan.2 dflt1
    ({ w with txqs := txqs1, rxqs := scan.1 } :: rec1.1, rec1.2.1, rec1.2.2)

/-- The final loop of port_queue_assign: the queue maps pushed to the
default worker for every rx queue in range whose bit is not set. -/
def pqa_missing (pid n_rxq bits : Nat) : List QueueMap :=
  (List.range n_rxq).filterMap (fun rxq =>
    if bits &&& cShl1 rxq = 0 then
      some { port_id := pid, queue_id := rxq, enabled := false }
    else none)

/-- In-place update of one list element (the C mutates the default
worker's vector through a pointer). -/
def listModify (f : Worker → Worker) : Nat → List Worker → List Worker
  | _, [] => []
  | 0, w :: rest => f w :: rest
  | n + 1, w :: rest => w :: listModify f n rest

/-- port_queue_assign.  The boolean is false when no default worker was
found, in which case the C `assert(default_worker != NULL)` aborts the
process; the workers then carry only the first pass's changes. -/
def port_queue_assign (sm : Worker → Bool) (p : PortInfo) (ws : List Worker) :
    Bool × List Worker :=
  let pass := pqa_pass1 sm p.port_id p.n_rxq ws 0 0 0 none
  match pass.2.2 with
  | none => (false, pass.1)
  | some d =>
    (true,
      listModify (fun w => { w with rxqs := w.rxqs ++ pqa_missing p.port_id p.n_rxq pass.2.1 })
        d pass.1)

/-- get_rxq_size: resolve a zero `rxq_size` to the device-info default
ring size and then to the DPDK fallback constant, writing the resolved
value back into the port info. -/
def get_rxq_size (p : PortInfo) (info : DevInfo) : Nat × PortInfo :=
  let p := if p.rxq_size = 0 then { p with rxq_size := info.default_rxportconf_ring_size } else p
  let p := if p.rxq_size = 0 then { p with rxq_size := RTE_ETH_DEV_FALLBACK_RX_RINGSIZE } else p
  (p.rxq_size, p)

/-- get_txq_size: same resolution for the tx ring size. -/
def get_txq_size (p : PortInfo) (info : DevInfo) : Nat × PortInfo :=
  let p := if p.txq_size = 0 then { p with txq_size := info.default_txportconf_ring_size } else p
  let p := if p.txq_size = 0 then { p with txq_size := RTE_ETH_DEV_FALLBACK_TX_RINGSIZE } else p
  (p.txq_size, p)

/-- rte_align32pow2: smallest power of two at least `x` (uint32
semantics; the result only feeds the mbuf-pool oracle). -/
def rte_align32pow2 (x : Nat) : Nat :=
  if x ≤ 1 then x else 2 ^ (Nat.log2 (x - 1) + 1)

/-- First failing per-queue setup result among queues `0..n-1`,
mirroring the rx/tx `rte_eth_*_queue_setup` loops. -/
def firstErr (f : Nat → Int) (n : Nat) : Option Int :=
  (List.range n).findSome? (fun q => if f q < 0 then some (f q) else none)

/-- The part of port_configure from the rss/offload conf computation and
the rte_eth_dev_configure call onward (a straight-line suffix of the C
function, split out with the current port info `q` and the resolved ring
sizes in hand): configure the device, release/create the pool, set up
every rx and tx queue, run the queue assignment and mark the port
configured.  The `assert(default_worker != NULL)` inside
port_queue_assign aborts the process; that (unreachable, see
worker_ensure_default) outcome is modelled as an error return. -/
def port_configure_rest (env : PortEnv) (q : PortInfo) (ws : List Worker)
    (rxq_size txq_size : Nat) (info : DevInfo) : Int × PortInfo × List Worker :=
  let rss_hf := default_rss_hf &&& info.flow_type_rss_offloads
  let _mq_mode : Nat := if rss_hf = 0 then 0 else 1
  let _offloads := RTE_ETH_RX_OFFLOAD_CHECKSUM &&& info.rx_offload_capa
  if env.configure_ret < 0 then (env.configure_ret, q, ws)
  else
    let _mbuf_count :=
      rte_align32pow2 ((rxq_size * q.n_rxq + txq_size * q.n_txq + RTE_GRAPH_BURST_SIZE) % 2 ^ 32) - 1
    match env.pool_err with
    | some e => (e, q, ws)
    | none =>
      let q := { q with pool := true }
      match firstErr env.rx_setup_ret q.n_rxq with
      | some e => (e, q, ws)
      | none =>
        match firstErr env.tx_setup_ret q.n_txq with
        | some e => (e, q, ws)
        | none =>
          match port_queue_assign env.socket_match q ws with
          | (false, ws1) => (-(EINVAL : Int), q, ws1)
          | (true, ws1) => (0, { q with configured := true }, ws1)

/-- port_configure: ensure a worker on the device's socket, derive the
queue counts, resolve the ring sizes, release the old buffer pool and
continue with `port_configure_rest`.  Returns the C int result together
with the mutated port info and workers (mutations before a failure
persist, as they do in the C). -/
def port_configure (env : PortEnv) (p0 : PortInfo) (ws0 : List Worker) :
    Int × PortInfo × List Worker :=
  match worker_ensure_default env ws0 with
  | .error e => (e, p0, ws0)
  | .ok ws =>
    let p := { p0 with n_txq := ws.length }
    let p := if p.n_rxq = 0 then { p with n_rxq := 1 } else p
    match env.dev_info with
    | .error e => (e, p, ws)
    | .ok info =>
      let rx := get_rxq_size p info
      let tx := get_txq_size rx.2 info
      let p := { tx.2 with pool := false }
      port_configure_rest env p ws rx.1 tx.1 info

/-- The queue-count / queue-size absorption block at the top of
iface_port_reconfig: copy the requested counts and sizes (a Q_SIZE
request copies `api.rxq_size` into both sizes) and clear `configured`
whenever any of the three bits is present. -/
def port_absorb_queue_attrs (set_attrs : Nat) (api : ApiPortInfo) (p : PortInfo) : PortInfo :=
  if set_attrs &&& (BR_PORT_SET_N_RXQS ||| BR_PORT_SET_N_TXQS ||| BR_PORT_SET_Q_SIZE) ≠ 0 then
    let p := if set_attrs &&& BR_PORT_SET_N_RXQS ≠ 0 then { p with n_rxq := api.n_rxq } else p
    let p := if set_attrs &&& BR_PORT_SET_N_TXQS ≠ 0 then { p with n_txq := api.n_txq } else p
    let p := if set_attrs &&& BR_PORT_SET_Q_SIZE ≠ 0 then
        { p with rxq_size := api.rxq_size, txq_size := api.rxq_size }
      else p
    { p with configured := false }
  else p

/-- Sixteen-bit clearing of a flag bit (`x &= ~bit` on a uint16 field). -/
def clear16 (x b : Nat) : Nat := x &&& (65535 ^^^ b)

/-- The SET_FLAGS block of iface_port_reconfig: apply PROMISC, ALLMULTI
and link state to the device; when a set call fails, read the observable
state back into the flags; finally mirror the link status into the
RUNNING state bit.  All errors in this block are logged, not
returned. -/
def port_apply_flags (env : PortEnv) (ifc : Iface) : Iface :=
  let ifc :=
    if env.promisc_set_ret < 0 then
      if env.promisc_get then { ifc with flags := ifc.flags ||| BR_IFACE_F_PROMISC }
      else { ifc with flags := clear16 ifc.flags BR_IFACE_F_PROMISC }
    else ifc
  let ifc :=
    if env.allmulti_set_ret < 0 then
      if env.allmulti_get then { ifc with flags := ifc.flags ||| BR_IFACE_F_ALLMULTI }
      else { ifc with flags := clear16 ifc.flags BR_IFACE_F_ALLMULTI }
    else ifc
  match env.link_get with
  | some up =>
    if up then { ifc with state := ifc.state ||| BR_IFACE_S_RUNNING }
    else { ifc with state := clear16 ifc.state BR_IFACE_S_RUNNING }
  | none => ifc

/-- The MTU step of iface_port_reconfig: push a requested non-zero MTU
to the device, otherwise read the device MTU back into the interface. -/
def port_reconf_mtu (env : PortEnv) (set_attrs : Nat) (ifc : Iface) : Except Int Iface :=
  if set_attrs &&& BR_IFACE_SET_MTU ≠ 0 ∧ ifc.mtu ≠ 0 then
    if env.set_mtu_ret < 0 then .error env.set_mtu_ret else .ok ifc
  else
    match env.get_mtu_ret with
    | .error e => .error e
    | .ok m => .ok { ifc with mtu := m }

/-- The MAC step of iface_port_reconfig: push a requested non-zero MAC
and mirror it into the port info, otherwise read the device MAC back. -/
def port_reconf_mac (env : PortEnv) (set_attrs : Nat) (api : ApiPortInfo) (p : PortInfo) :
    Except Int PortInfo :=
  if set_attrs &&& BR_PORT_SET_MAC ≠ 0 ∧ api.mac ≠ 0 then
    if env.set_mac_ret < 0 then .error env.set_mac_ret else .ok { p with mac := api.mac }
  else
    match env.get_mac_ret with
    | .error e => .error e
    | .ok m => .ok { p with mac := m }

/-- iface_port_reconfig: unplug, absorb queue attributes, stop the
device when needed, run port_configure when unconfigured, apply flags,
MTU and MAC, restart the device, and plug the queue maps back in.  The
result is the C int return plus the mutated interface, port info and
workers. -/
def iface_port_reconfig (env : PortEnv) (set_attrs : Nat) (ifc0 : Iface) (p0 : PortInfo)
    (api : ApiPortInfo) (ws0 : List Worker) : Int × Iface × PortInfo × List Worker :=
  let pid := p0.port_id
  let ws := port_unplug pid ws0
  let p := port_absorb_queue_attrs set_attrs api p0
  let needStop :=
    !p.configured ||
      (set_attrs &&& (BR_IFACE_SET_FLAGS ||| BR_IFACE_SET_MTU ||| BR_PORT_SET_MAC) != 0)
  if needStop = true ∧ env.stop_ret < 0 then
    (env.stop_ret, ifc0, p, ws)
  else
    let stopped := needStop
    let r := if !p.configured then port_configure env p ws else (0, p, ws)
    if r.1 < 0 then (r.1, ifc0, r.2.1, r.2.2)
    else
      let p := r.2.1
      let ws := r.2.2
      let ifc := if set_attrs &&& BR_IFACE_SET_FLAGS ≠ 0 then port_apply_flags env ifc0 else ifc0
      match port_reconf_mtu env set_attrs ifc with
      | .error e => (e, ifc, p, ws)
      | .ok ifc =>
        match port_reconf_mac env set_attrs api p with
        | .error e => (e, ifc, p, ws)
        | .ok p =>
          if stopped = true ∧ env.start_ret < 0 then (env.start_ret, ifc, p, ws)
          else (0, ifc, p, port_plug pid ws)

/-! ## VLAN subsystem (modules/infra/control/vlan.c) -/

/-- Interface type tags (gr_iface.h is not in the provided sources;
only PORT vs non-PORT matters). -/
def GR_IFACE_TYPE_PORT : Nat := 1

/-- See `GR_IFACE_TYPE_PORT`. -/
def GR_IFACE_TYPE_VLAN : Nat := 2

/-- What the interface registry knows about an interface, as consumed by
vlan.c: its type tag and, for a PORT, the DPDK port id of its info. -/
structure IfaceRec where
  type_id : Nat
  port_id : Nat
deriving Repr, DecidableEq

/-- The id-keyed interface registry (modelled from the spec: iface.c is
not in the provided sources). -/
abbrev Registry := List (Nat × IfaceRec)

/-- iface_from_id. -/
def iface_from_id (reg : Registry) (id : Nat) : Option IfaceRec :=
  hashLookup reg id

/-- get_parent_port_id: resolve the parent interface and require it to be
a PORT.  The errno of a failed `iface_from_id` is not in the provided
sources and is modelled as ENOENT; no claim depends on its value. -/
def get_parent_port_id (reg : Registry) (parent_id : Nat) : Except Int Nat :=
  match iface_from_id reg parent_id with
  | none => .error (-(ENOENT : Int))
  | some parent =>
    if parent.type_id ≠ GR_IFACE_TYPE_PORT then .error (-(EMEDIUMTYPE : Int))
    else .ok parent.port_id

/-- `struct iface_info_vlan`. -/
structure VlanInfo where
  parent_id : Nat
  vlan_id : Nat
  mac : Nat
deriving Repr, DecidableEq

/-- `struct gr_iface_info_vlan` request payload. -/
structure GrIfaceInfoVlan where
  parent_id : Nat
  vlan_id : Nat
  mac : Nat
deriving Repr, DecidableEq

/-- One call into the device-driver facade, recorded in emission order
so that "no DDF side effects" is expressible. -/
inductive DdfEffect where
  | vlan_filter (port_id vlan_id : Nat) (enable : Bool)
  | add_eth_addr (parent_id mac : Nat)
  | del_eth_addr (parent_id mac : Nat)
deriving Repr, DecidableEq

/-- Oracle for the DDF results consumed by iface_vlan_reconfig. -/
structure VlanEnv where
  vlan_filter_ret : Nat → Nat → Bool → Int
  add_eth_ret : Int
  del_eth_ret : Int

/-- The state iface_vlan_reconfig mutates: the `(parent_id, vlan_id)`
hash (values are interface ids), this VLAN's own info, its common
attributes, and the parent/subinterface links of the registry. -/
structure VlanCtx where
  vlan_hash : List ((Nat × Nat) × Nat)
  cur : VlanInfo
  flags : Nat
  mtu : Nat
  vrf_id : Nat
  subifs : List (Nat × Nat)
deriving Repr, DecidableEq

/-- The tail of iface_vlan_reconfig: the SET_MAC block (remove the old
multicast MAC filter on a reconfig, add the new one, mirror it) followed
by the common-attribute commits.  `old_parent_id` and `old_mac` are the
values read from the VLAN info before the PARENT/VLAN block committed
new ones (`cur_parent` and `cur->mac` in the C). -/
def vlan_tail (env : VlanEnv) (old_parent_id old_mac : Nat) (ctx : VlanCtx)
    (set_attrs flags mtu vrf_id : Nat) (next : GrIfaceInfoVlan)
    (fx : List DdfEffect) (reconfig : Bool) : Int × VlanCtx × List DdfEffect :=
  match (if set_attrs &&& GR_VLAN_SET_MAC ≠ 0 then
      let fx := if reconfig then fx ++ [DdfEffect.del_eth_addr old_parent_id old_mac] else fx
      let fx := fx ++ [DdfEffect.add_eth_addr next.parent_id next.mac]
      if env.add_eth_ret < 0 then Except.error (env.add_eth_ret, ctx, fx)
      else Except.ok ({ ctx with cur := { ctx.cur with mac := next.mac } }, fx)
    else Except.ok (ctx, fx)) with
  | .error r => r
  | .ok (ctx, fx) =>
    let ctx := if set_attrs &&& BR_IFACE_SET_FLAGS ≠ 0 then { ctx with flags := flags } else ctx
    let ctx := if set_attrs &&& BR_IFACE_SET_MTU ≠ 0 then { ctx with mtu := mtu } else ctx
    let ctx := if set_attrs &&& BR_IFACE_SET_VRF ≠ 0 then { ctx with vrf_id := vrf_id } else ctx
    (0, ctx, fx)

/-- iface_vlan_reconfig: resolve the parents, and when PARENT or VLAN is
in the mask, reject a duplicate `(parent_id, vlan_id)` key with
EADDRINUSE before touching the device; on a reconfig back out the old
key, link and filter first; then enable the new VLAN filter (tolerating
ENOTSUP/ENOSYS), commit the new key, and finish with the MAC and common
attribute steps.  Returns the C int result, the mutated state and the
DDF calls emitted.  (`rte_hash_add_key_data` is modelled as succeeding:
the hash is sized for MAX_IFACES entries.) -/
def iface_vlan_reconfig (reg : Registry) (env : VlanEnv) (self_id : Nat) (ctx0 : VlanCtx)
    (set_attrs : Nat) (flags mtu vrf_id : Nat) (next : GrIfaceInfoVlan) :
    Int × VlanCtx × List DdfEffect :=
  let reconfig := set_attrs != IFACE_SET_ALL
  if reconfig && (iface_from_id reg ctx0.cur.parent_id).isNone then
    (-(ENOENT : Int), ctx0, [])
  else
    match iface_from_id reg next.parent_id with
    | none => (-(ENOENT : Int), ctx0, [])
    | some _next_parent =>
      if set_attrs &&& (GR_VLAN_SET_PARENT ||| GR_VLAN_SET_VLAN) ≠ 0 then
        match get_parent_port_id reg next.parent_id with
        | .error e => (e, ctx0, [])
        | .ok next_port_id =>
          if (hashLookup ctx0.vlan_hash (next.parent_id, next.vlan_id)).isSome then
            (-(EADDRINUSE : Int), ctx0, [])
          else
            let cont := fun (ctx1 : VlanCtx) (fx1 : List DdfEffect) =>
              let fx := fx1 ++ [DdfEffect.vlan_filter next_port_id next.vlan_id true]
              let fr := env.vlan_filter_ret next_port_id next.vlan_id true
              if fr < 0 ∧ fr ≠ -(ENOTSUP : Int) ∧ fr ≠ -(ENOSYS : Int) then
                (fr, ctx1, fx)
              else
                let ctx2 := { ctx1 with
                  cur := { ctx1.cur with parent_id := next.parent_id, vlan_id := next.vlan_id },
                  subifs := ctx1.subifs ++ [(next.parent_id, self_id)],
                  vlan_hash := ctx1.vlan_hash ++ [((next.parent_id, next.vlan_id), self_id)] }
                vlan_tail env ctx0.cur.parent_id ctx0.cur.mac ctx2 set_attrs flags mtu vrf_id
                  next fx reconfig
            if reconfig then
              let ctx1 := { ctx0 with
                vlan_hash := hashDel ctx0.vlan_hash (ctx0.cur.parent_id, ctx0.cur.vlan_id),
                subifs := ctx0.subifs.filter (fun pc => pc ≠ (ctx0.cur.parent_id, self_id)) }
              match get_parent_port_id reg ctx0.cur.parent_id with
              | .error e => (e, ctx1, [])
              | .ok cur_port_id =>
                cont ctx1 [DdfEffect.vlan_filter cur_port_id ctx0.cur.vlan_id false]
            else
              cont ctx0 []
      else
        vlan_tail env ctx0.cur.parent_id ctx0.cur.mac ctx0 set_attrs flags mtu vrf_id
          next [] reconfig

/-- Every queue map of the given port across all workers is disabled:
the unplugged state the spec requires between port.reconfig's unplug and
plug steps. -/
def port_disabled (pid : Nat) (ws : List Worker) : Prop :=
  ∀ w ∈ ws, ∀ q : QueueMap, (q ∈ w.rxqs ∨ q ∈ w.txqs) → q.port_id = pid → q.enabled = false

/-! ## Helper lemmas -/

theorem hashLookup_hashDel {α β : Type} [DecidableEq α] (h : List (α × β)) (k k' : α) :
    hashLookup (hashDel h k) k' = if k' = k then none else hashLookup h k' := by
  induction h with
  | nil => simp [hashDel, hashLookup]
  | cons kv rest ih =>
    by_cases h1 : kv.1 = k
    · rw [show hashDel (kv :: rest) k = hashDel rest k by
        simp [hashDel, List.filter_cons, h1]]
      rw [ih]
      by_cases h2 : k' = k
      · simp [h2]
      · have hne : kv.1 ≠ k' := by rw [h1]; exact fun hh => h2 hh.symm
        simp [hashLookup, h2, hne]
    · rw [show hashDel (kv :: rest) k = kv :: hashDel rest k by
        simp [hashDel, List.filter_cons, h1]]
      by_cases h2 : kv.1 = k'
      · have hk : k' ≠ k := fun hh => h1 (h2.trans hh)
        simp [hashLookup, h2, hk]
      · simp [hashLookup, h2, ih]

/-! ## Claim theorems -/

/-- C2: for every next hop, `ip4_nexthop_decref` removes the hash mapping
for its ip and zeroes the whole slot when `ref_count <= 1` (including
`ref_count == 0`), and otherwise only decrements `ref_count` by one;
`ip4_nexthop_incref` always increments `ref_count` by one. -/
theorem c2_nexthop_decref_incref (st : NhState) (idx : Nat) :
    ((st.arr idx).ref_count ≤ 1 →
      ip4_nexthop_lookup (ip4_nexthop_decref st idx) (st.arr idx).ip = none ∧
      (∀ ip, ip ≠ (st.arr idx).ip →
        ip4_nexthop_lookup (ip4_nexthop_decref st idx) ip = ip4_nexthop_lookup st ip) ∧
      (ip4_nexthop_decref st idx).arr idx = zeroNexthop ∧
      (∀ j, j ≠ idx → (ip4_nexthop_decref st idx).arr j = st.arr j)) ∧
    ((st.arr idx).ref_count > 1 →
      (ip4_nexthop_decref st idx).hash = st.hash ∧
      (ip4_nexthop_decref st idx).arr idx =
        { st.arr idx with ref_count := (st.arr idx).ref_count - 1 } ∧
      (∀ j, j ≠ idx → (ip4_nexthop_decref st idx).arr j = st.arr j)) ∧
    ((ip4_nexthop_incref st idx).hash = st.hash ∧
     (ip4_nexthop_incref st idx).arr idx =
       { st.arr idx with ref_count := (st.arr idx).ref_count + 1 } ∧
     (∀ j, j ≠ idx → (ip4_nexthop_incref st idx).arr j = st.arr j)) := by
  refine ⟨fun hle => ?_, fun hgt => ?_, ?_⟩
  · constructor
    · simp only [ip4_nexthop_decref, hle, if_pos]
      simpa [ip4_nexthop_lookup] using hashLookup_hashDel st.hash (st.arr idx).ip (st.arr idx).ip
    · refine ⟨fun ip hip => ?_, ?_, fun j hj => ?_⟩
      · simp only [ip4_nexthop_decref, hle, if_pos, ip4_nexthop_lookup]
        simp [hashLookup_hashDel, hip]
      · simp [ip4_nexthop_decref, hle]
      · simp [ip4_nexthop_decref, hle, hj]
  · have hnot : ¬ (st.arr idx).ref_count ≤ 1 := by omega
    refine ⟨?_, ?_, fun j hj => ?_⟩
    · simp [ip4_nexthop_decref, hnot]
    · simp [ip4_nexthop_decref, hnot]
    · simp [ip4_nexthop_decref, hnot, hj]
  · refine ⟨rfl, by simp [ip4_nexthop_incref], fun j hj => by simp [ip4_nexthop_incref, hj]⟩

/-- Witness for C2 at a concrete one-entry state with `ref_count = 1`:
the decref frees the slot and removes the mapping. -/
theorem c2_nexthop_decref_incref_witness :
    ip4_nexthop_lookup
        (ip4_nexthop_decref
          { hash := [(5, 0)],
            arr := fun _ =>
              { ip := 5, iface_id := 1, lladdr := 2, flags := 3, ref_count := 1, last_seen := 0 } }
          0) 5 = none ∧
    (ip4_nexthop_decref
        { hash := [(5, 0)],
          arr := fun _ =>
            { ip := 5, iface_id := 1, lladdr := 2, flags := 3, ref_count := 1, last_seen := 0 } }
        0).arr 0 = zeroNexthop := by
  have h := c2_nexthop_decref_incref
    { hash := [(5, 0)],
      arr := fun _ =>
        { ip := 5, iface_id := 1, lladdr := 2, flags := 3, ref_count := 1, last_seen := 0 } }
    0
  exact ⟨(h.1 (by decide)).1, (h.1 (by decide)).2.2.1⟩

theorem hashLookup_append_self {α β : Type} [DecidableEq α] (h : List (α × β)) (k : α) (v : β)
    (hnone : hashLookup h k = none) : hashLookup (h ++ [(k, v)]) k = some v := by
  induction h with
  | nil => simp [hashLookup]
  | cons kv rest ih =>
    by_cases h1 : kv.1 = k
    · simp [hashLookup, h1] at hnone
    · simp only [List.cons_append, hashLookup, if_neg h1] at hnone ⊢
      exact ih hnone

theorem nh4_add_present (ifaces : List Nat) (req : NhAddReq) (st : Ip4State) (idx : Nat)
    (hhost : ¬ req.host = 0) (hif : ifaces.contains req.iface_id = true)
    (hlook : ip4_nexthop_lookup st.nh req.host = some idx) :
    nh4_add ifaces req st =
      (if req.exist_ok && req.iface_id == (st.nh.arr idx).iface_id
            && req.mac == (st.nh.arr idx).lladdr
        then (0, st) else (EEXIST, st)) := by
  simp only [nh4_add, if_neg hhost, hif, Bool.not_true, Bool.false_eq_true, if_false, hlook]

theorem nh4_add_fresh (ifaces : List Nat) (req : NhAddReq) (st : Ip4State)
    (hhost : ¬ req.host = 0) (hif : ifaces.contains req.iface_id = true)
    (hlook : ip4_nexthop_lookup st.nh req.host = none)
    (hcap : st.nh.hash.length < MAX_NEXT_HOPS)
    (hnoroute : st.routes.any (fun r => r.dest == req.host && r.depth == 32) = false) :
    (nh4_add ifaces req st).1 = 0 ∧
    (nh4_add ifaces req st).2.nh.hash =
      st.nh.hash ++ [(req.host, freshIdx (st.nh.hash.map Prod.snd))] ∧
    ((nh4_add ifaces req st).2.nh.arr (freshIdx (st.nh.hash.map Prod.snd))).ip = req.host ∧
    ((nh4_add ifaces req st).2.nh.arr (freshIdx (st.nh.hash.map Prod.snd))).iface_id
      = req.iface_id ∧
    ((nh4_add ifaces req st).2.nh.arr (freshIdx (st.nh.hash.map Prod.snd))).lladdr = req.mac ∧
    ((nh4_add ifaces req st).2.nh.arr (freshIdx (st.nh.hash.map Prod.snd))).flags
      = BR_IP4_NH_F_STATIC ||| BR_IP4_NH_F_REACHABLE ∧
    (∀ j, j ≠ freshIdx (st.nh.hash.map Prod.snd) →
      (nh4_add ifaces req st).2.nh.arr j = st.nh.arr j) ∧
    (nh4_add ifaces req st).2.routes =
      st.routes ++ [⟨req.host, 32, freshIdx (st.nh.hash.map Prod.snd)⟩] := by
  have hncap : ¬ st.nh.hash.length ≥ MAX_NEXT_HOPS := by omega
  simp only [nh4_add, if_neg hhost, hif, Bool.not_true, Bool.false_eq_true, if_false, hlook,
    ip4_nexthop_lookup_add, if_neg hncap, ip4_route_insert, hnoroute, Bool.false_eq_true,
    if_false, ip4_nexthop_incref]
  refine ⟨?_, ?_, ?_, ?_, ?_, ?_, fun j hj => ?_, ?_⟩ <;>
    first
    | rfl
    | trivial
    | simp_all

/-- C3: nh_add returns EINVAL when the requested host is 0; when the host
already has a next hop (the requested iface being known), it returns
success without modifying any state iff exist_ok is set and the requested
iface_id equals the stored iface_id and the requested mac equals the
stored lladdr, and returns EEXIST in every other already-present case; in
particular two consecutive nh_add calls with identical payload and
exist_ok succeed, while changing iface_id or mac between the calls yields
EEXIST. -/
theorem c3_nh4_add_error_handling (ifaces : List Nat) (req : NhAddReq) (st : Ip4State)
    (idx : Nat) (hif : ifaces.contains req.iface_id = true) :
    (req.host = 0 → nh4_add ifaces req st = (EINVAL, st)) ∧
    (req.host ≠ 0 → ip4_nexthop_lookup st.nh req.host = some idx →
      (((nh4_add ifaces req st).1 = 0 ∧ (nh4_add ifaces req st).2 = st) ↔
        (req.exist_ok = true ∧ req.iface_id = (st.nh.arr idx).iface_id ∧
          req.mac = (st.nh.arr idx).lladdr)) ∧
      (¬(req.exist_ok = true ∧ req.iface_id = (st.nh.arr idx).iface_id ∧
          req.mac = (st.nh.arr idx).lladdr) →
        nh4_add ifaces req st = (EEXIST, st))) ∧
    (req.host ≠ 0 → ip4_nexthop_lookup st.nh req.host = none →
      (nh4_add ifaces req st).1 = 0 →
      nh4_add ifaces { req with exist_ok := true } (nh4_add ifaces req st).2 =
        (0, (nh4_add ifaces req st).2) ∧
      (∀ req2 : NhAddReq, req2.host = req.host → ifaces.contains req2.iface_id = true →
        req2.iface_id ≠ req.iface_id ∨ req2.mac ≠ req.mac →
        (nh4_add ifaces req2 (nh4_add ifaces req st).2).1 = EEXIST)) := by
  refine ⟨fun h0 => by simp [nh4_add, h0], fun hhost hlook => ?_, fun hhost hlook hok => ?_⟩
  · have hred := nh4_add_present ifaces req st idx hhost hif hlook
    have hgiff : (req.exist_ok && req.iface_id == (st.nh.arr idx).iface_id
          && req.mac == (st.nh.arr idx).lladdr) = true ↔
        (req.exist_ok = true ∧ req.iface_id = (st.nh.arr idx).iface_id ∧
          req.mac = (st.nh.arr idx).lladdr) := by
      simp [Bool.and_eq_true, beq_iff_eq, and_assoc]
    by_cases hg : (req.exist_ok && req.iface_id == (st.nh.arr idx).iface_id
        && req.mac == (st.nh.arr idx).lladdr) = true
    · rw [hred, if_pos hg]
      exact ⟨⟨fun _ => hgiff.mp hg, fun _ => ⟨rfl, rfl⟩⟩, fun hn => absurd (hgiff.mp hg) hn⟩
    · rw [hred, if_neg hg]
      refine ⟨⟨fun hc => ?_, fun hrhs => absurd (hgiff.mpr hrhs) hg⟩, fun _ => rfl⟩
      have : EEXIST = 0 := hc.1
      simp [EEXIST] at this
  · by_cases hcap : st.nh.hash.length ≥ MAX_NEXT_HOPS
    · exfalso
      simp only [nh4_add, if_neg hhost, hif, Bool.not_true, Bool.false_eq_true, if_false,
        hlook, ip4_nexthop_lookup_add, if_pos hcap] at hok
      simp [ENOSPC] at hok
    · by_cases hroute : st.routes.any (fun r => r.dest == req.host && r.depth == 32) = true
      · exfalso
        simp only [nh4_add, if_neg hhost, hif, Bool.not_true, Bool.false_eq_true, if_false,
          hlook, ip4_nexthop_lookup_add, if_neg hcap, ip4_route_insert, hroute, if_true] at hok
        simp [EEXIST] at hok
      · have hcap' : st.nh.hash.length < MAX_NEXT_HOPS := by omega
        have hroute' : st.routes.any (fun r => r.dest == req.host && r.depth == 32) = false :=
          Bool.eq_false_iff.mpr hroute
        obtain ⟨-, hhash, hip, hiface, hmac, hflags, -, -⟩ :=
          nh4_add_fresh ifaces req st hhost hif hlook hcap' hroute'
        set st1 := (nh4_add ifaces req st).2 with hst1
        have hlook1 : ip4_nexthop_lookup st1.nh req.host
            = some (freshIdx (st.nh.hash.map Prod.snd)) := by
          unfold ip4_nexthop_lookup at hlook ⊢
          rw [hhash]
          exact hashLookup_append_self _ _ _ hlook
        constructor
        · have hred := nh4_add_present ifaces { req with exist_ok := true } st1
            (freshIdx (st.nh.hash.map Prod.snd)) hhost hif hlook1
          rw [hred, if_pos (by simp [hiface, hmac])]
        · intro req2 h2host h2if h2diff
          have h2host' : ¬ req2.host = 0 := by rw [h2host]; exact hhost
          have hlook2 : ip4_nexthop_lookup st1.nh req2.host
              = some (freshIdx (st.nh.hash.map Prod.snd)) := by rw [h2host]; exact hlook1
          have hred := nh4_add_present ifaces req2 st1
            (freshIdx (st.nh.hash.map Prod.snd)) h2host' h2if hlook2
          rw [hred, if_neg ?_]
          rcases h2diff with hd | hd
          · simp [hiface, hd]
          · simp [hmac, hd]

/-- Witness for C3: with interface 1 known and host 5 present with
iface_id 1 and lladdr 7, a request with a different mac and exist_ok set
is answered EEXIST without touching the state. -/
theorem c3_nh4_add_error_handling_witness :
    nh4_add [1] ⟨5, 1, 8, true⟩
        ⟨⟨[(5, 3)], fun _ =>
          { ip := 5, iface_id := 1, lladdr := 7, flags := 3, ref_count := 1, last_seen := 0 }⟩,
          []⟩ =
      (EEXIST,
        ⟨⟨[(5, 3)], fun _ =>
          { ip := 5, iface_id := 1, lladdr := 7, flags := 3, ref_count := 1, last_seen := 0 }⟩,
          []⟩) :=
  ((c3_nh4_add_error_handling [1] ⟨5, 1, 8, true⟩
      ⟨⟨[(5, 3)], fun _ =>
        { ip := 5, iface_id := 1, lladdr := 7, flags := 3, ref_count := 1, last_seen := 0 }⟩,
        []⟩ 3 (by decide)).2.1 (by decide) rfl).2 (by decide)

/-- C4: nh_del on a host with no next hop returns success when missing_ok
is set and ENOENT otherwise; when the next hop exists, nh_del returns
EBUSY leaving the state unchanged iff its flags contain LOCAL or LINK or
its ref_count is greater than 1, and otherwise deletes the /32 route,
whose delete performs the decref that frees the next hop (hash mapping
removed, slot zeroed). -/
theorem c4_nh4_del_error_handling (req : NhDelReq) (st : Ip4State) (idx : Nat) :
    (ip4_nexthop_lookup st.nh req.host = none →
      nh4_del req st = (if req.missing_ok then 0 else ENOENT, st)) ∧
    (ip4_nexthop_lookup st.nh req.host = some idx →
      (((st.nh.arr idx).flags &&& (BR_IP4_NH_F_LOCAL ||| BR_IP4_NH_F_LINK) ≠ 0 ∨
          (st.nh.arr idx).ref_count > 1) →
        nh4_del req st = (EBUSY, st)) ∧
      (¬((st.nh.arr idx).flags &&& (BR_IP4_NH_F_LOCAL ||| BR_IP4_NH_F_LINK) ≠ 0 ∨
          (st.nh.arr idx).ref_count > 1) →
        st.routes.find? (fun r => r.dest == req.host && r.depth == 32)
            = some ⟨req.host, 32, idx⟩ →
        (st.nh.arr idx).ip = req.host →
        (nh4_del req st).1 = 0 ∧
        (nh4_del req st).2.routes
          = st.routes.eraseP (fun r => r.dest == req.host && r.depth == 32) ∧
        ip4_nexthop_lookup (nh4_del req st).2.nh req.host = none ∧
        (nh4_del req st).2.nh.arr idx = zeroNexthop)) := by
  refine ⟨fun hnone => ?_, fun hlook => ⟨fun hbusy => ?_, fun hfree hfind hip => ?_⟩⟩
  · by_cases hm : req.missing_ok = true <;> simp [nh4_del, hnone, hm]
  · simp only [nh4_del, hlook, if_pos hbusy]
  · have hle : (st.nh.arr idx).ref_count ≤ 1 := by
      push_neg at hfree
      omega
    simp only [nh4_del, hlook, if_neg hfree, ip4_route_delete, hfind]
    refine ⟨by trivial, by trivial, ?_, ?_⟩
    · simp only [ip4_nexthop_decref, if_pos hle, ip4_nexthop_lookup]
      rw [hip]
      simpa using hashLookup_hashDel st.nh.hash req.host req.host
    · simp [ip4_nexthop_decref, hle]

/-- Witness for C4: a nexthop for host 5 with flags STATIC|REACHABLE and
ref_count 1 whose /32 route is installed is deleted: status 0, route
gone, hash mapping removed, slot zeroed. -/
theorem c4_nh4_del_error_handling_witness :
    (nh4_del ⟨5, false⟩
        ⟨⟨[(5, 3)], fun j =>
          if j = 3 then
            { ip := 5, iface_id := 1, lladdr := 7, flags := 3, ref_count := 1, last_seen := 0 }
          else zeroNexthop⟩,
          [⟨5, 32, 3⟩]⟩).1 = 0 ∧
    ip4_nexthop_lookup
        (nh4_del ⟨5, false⟩
          ⟨⟨[(5, 3)], fun j =>
            if j = 3 then
              { ip := 5, iface_id := 1, lladdr := 7, flags := 3, ref_count := 1, last_seen := 0 }
            else zeroNexthop⟩,
            [⟨5, 32, 3⟩]⟩).2.nh 5 = none ∧
    (nh4_del ⟨5, false⟩
        ⟨⟨[(5, 3)], fun j =>
          if j = 3 then
            { ip := 5, iface_id := 1, lladdr := 7, flags := 3, ref_count := 1, last_seen := 0 }
          else zeroNexthop⟩,
          [⟨5, 32, 3⟩]⟩).2.nh.arr 3 = zeroNexthop := by
  have h := (c4_nh4_del_error_handling ⟨5, false⟩
    ⟨⟨[(5, 3)], fun j =>
      if j = 3 then
        { ip := 5, iface_id := 1, lladdr := 7, flags := 3, ref_count := 1, last_seen := 0 }
      else zeroNexthop⟩,
      [⟨5, 32, 3⟩]⟩ 3).2 rfl
  have h2 := h.2 (by decide) (by decide) (by decide)
  exact ⟨h2.1, h2.2.2.1, h2.2.2.2⟩

theorem nh4_list_eq (st : NhState) (now hz : Nat) :
    nh4_list st now hz =
      { n_nhs := st.hash.length,
        nhs := st.hash.map (fun kv => nhListRecord (st.arr kv.2) now hz) } := by
  have h : ∀ (l : List (Nat × Nat)) (acc : NhListResp),
      l.foldl (fun resp kv =>
          let nh := st.arr kv.2
          { n_nhs := resp.n_nhs + 1, nhs := resp.nhs ++ [nhListRecord nh now hz] }) acc
        = { n_nhs := acc.n_nhs + l.length,
            nhs := acc.nhs ++ l.map (fun kv => nhListRecord (st.arr kv.2) now hz) } := by
    intro l
    induction l with
    | nil => intro acc; simp
    | cons kv rest ih =>
      intro acc
      rw [List.foldl_cons, ih]
      simp only [NhListResp.mk.injEq, List.map_cons, List.length_cons]
      exact ⟨by omega, by simp⟩
  unfold nh4_list
  rw [h]
  simp

/-- C8: nh4_list sizes its response for exactly the hash count, reports
one record per hash entry, and each record's age equals
`(last_seen - now) / ticks_per_second` (uint64 subtraction) when the
entry's last_seen is greater than 0, and 0 otherwise. -/
theorem c8_nh4_list_response (st : NhState) (now hz : Nat) :
    (nh4_list st now hz).nhs.length = st.hash.length ∧
    (nh4_list st now hz).n_nhs = st.hash.length ∧
    ∀ i : Nat, (nh4_list st now hz).nhs.get? i =
      (st.hash.get? i).map (fun kv =>
        { host := (st.arr kv.2).ip,
          iface_id := (st.arr kv.2).iface_id,
          mac := (st.arr kv.2).lladdr,
          flags := (st.arr kv.2).flags,
          age := if (st.arr kv.2).last_seen > 0 then sub64 (st.arr kv.2).last_seen now / hz
                 else 0 }) := by
  rw [nh4_list_eq]
  refine ⟨by simp, by simp, fun i => ?_⟩
  simp only [List.get?_eq_getElem?, List.getElem?_map]
  cases st.hash[i]? <;> simp [nhListRecord]

theorem hashLookup_mem {α β : Type} [DecidableEq α] (h : List (α × β)) (k : α) (v : β)
    (hl : hashLookup h k = some v) : (k, v) ∈ h := by
  induction h with
  | nil => simp [hashLookup] at hl
  | cons kv rest ih =>
    by_cases h1 : kv.1 = k
    · simp only [hashLookup, if_pos h1] at hl
      injection hl with hv
      have hkv : (k, v) = kv := by rw [← h1, ← hv]
      rw [hkv]
      exact List.mem_cons_self _ _
    · simp only [hashLookup, if_neg h1] at hl
      exact List.mem_cons_of_mem _ (ih hl)

theorem hashLookup_none_not_mem {α β : Type} [DecidableEq α] (h : List (α × β)) (k : α)
    (hl : hashLookup h k = none) : k ∉ h.map Prod.fst := by
  induction h with
  | nil => simp
  | cons kv rest ih =>
    by_cases h1 : kv.1 = k
    · simp [hashLookup, h1] at hl
    · simp only [hashLookup, if_neg h1] at hl
      simp only [List.map_cons, List.mem_cons]
      push_neg
      exact ⟨fun hh => h1 hh.symm, ih hl⟩

theorem le_foldr_max (used : List Nat) : ∀ x ∈ used, x ≤ used.foldr max 0 := by
  induction used with
  | nil => intro x hx; cases hx
  | cons a rest ih =>
    intro x hx
    rcases List.mem_cons.mp hx with h | h
    · subst h; exact le_max_left _ _
    · exact le_trans (ih x h) (le_max_right _ _)

theorem freshIdx_not_mem (used : List Nat) : freshIdx used ∉ used := by
  intro hmem
  have h := le_foldr_max used _ hmem
  simp only [freshIdx] at h
  omega

theorem filter_key_nil {β : Type} (h : List (Nat × β)) (k : Nat)
    (hnot : k ∉ h.map Prod.fst) : h.filter (fun kv => kv.1 == k) = [] := by
  induction h with
  | nil => rfl
  | cons kv rest ih =>
    simp only [List.map_cons, List.mem_cons] at hnot
    push_neg at hnot
    have hb : (kv.1 == k) = false := by
      simp only [beq_eq_false_iff_ne, ne_eq]
      exact fun hh => hnot.1 hh.symm
    simp [List.filter_cons, hb, ih hnot.2]

theorem filter_key_singleton {β : Type} (h : List (Nat × β)) (k : Nat) (v : β)
    (hnd : (h.map Prod.fst).Nodup) (hmem : (k, v) ∈ h) :
    h.filter (fun kv => kv.1 == k) = [(k, v)] := by
  induction h with
  | nil => cases hmem
  | cons kv rest ih =>
    simp only [List.map_cons, List.nodup_cons] at hnd
    rcases List.mem_cons.mp hmem with h1 | h1
    · have hk : k ∉ rest.map Prod.fst := by
        have := hnd.1
        rw [← h1] at this
        exact this
      rw [← h1]
      simp [List.filter_cons, filter_key_nil rest k hk]
    · have hkne : (kv.1 == k) = false := by
        simp only [beq_eq_false_iff_ne, ne_eq]
        intro hh
        have hmk : k ∈ rest.map Prod.fst := by
          have := List.mem_map_of_mem Prod.fst h1
          simpa using this
        rw [hh] at hnd
        exact hnd.1 hmk
      simp [List.filter_cons, hkne, ih hnd.2 h1]

theorem filter_map_eq {α β : Type} (f : α → β) (p : β → Bool) (l : List α) :
    (l.map f).filter p = (l.filter (fun a => p (f a))).map f := by
  induction l with
  | nil => rfl
  | cons a rest ih =>
    by_cases hp : p (f a) = true <;> simp [List.filter_cons, hp, ih]

theorem filter_congr_mem {α : Type} (p q : α → Bool) (l : List α)
    (h : ∀ a ∈ l, p a = q a) : l.filter p = l.filter q := by
  induction l with
  | nil => rfl
  | cons a rest ih =>
    have ha := h a (List.mem_cons_self _ _)
    have hr := fun x hx => h x (List.mem_cons_of_mem _ hx)
    by_cases hp : q a = true <;> simp [List.filter_cons, ha, hp, ih hr]

theorem nh_list_once (st2 : NhState) (host idx : Nat) (now hz : Nat)
    (hnd : (st2.hash.map Prod.fst).Nodup)
    (hcons : ∀ kv ∈ st2.hash, (st2.arr kv.2).ip = kv.1)
    (hmem : (host, idx) ∈ st2.hash) :
    ((nh4_list st2 now hz).nhs.filter (fun r => r.host == host)).length = 1 ∧
    ∀ r ∈ (nh4_list st2 now hz).nhs, r.host = host →
      r = nhListRecord (st2.arr idx) now hz := by
  rw [nh4_list_eq]
  have hfil : st2.hash.filter (fun kv => kv.1 == host) = [(host, idx)] :=
    filter_key_singleton _ _ _ hnd hmem
  have hfeq : ∀ kv ∈ st2.hash,
      ((nhListRecord (st2.arr kv.2) now hz).host == host) = (kv.1 == host) := by
    intro kv hkv
    simp [nhListRecord, hcons kv hkv]
  constructor
  · rw [filter_map_eq, filter_congr_mem _ _ _ hfeq, hfil]
    simp
  · intro r hr hrh
    simp only at hr
    obtain ⟨kv, hkv, hrkv⟩ := List.mem_map.mp hr
    have hk1 : kv.1 = host := by
      have hc := hcons kv hkv
      rw [← hrkv] at hrh
      simpa [nhListRecord, hc] using hrh
    have hinf : kv ∈ st2.hash.filter (fun kv => kv.1 == host) :=
      List.mem_filter.mpr ⟨hkv, by simp [hk1]⟩
    rw [hfil] at hinf
    simp only [List.mem_singleton] at hinf
    rw [← hrkv, hinf]

/-- C5: for every request that makes nh_add return success, a subsequent
nh_list response contains the added host exactly once, with the iface_id
and mac from the request and with flags a superset of
{STATIC, REACHABLE}.  The hypotheses are the standing invariants of the
next-hop table: hash keys are unique, every mapped slot stores its key as
its ip, and every live next hop of this module carries STATIC|REACHABLE
(nh4_add is its only creator in the provided sources). -/
theorem c5_nh4_add_then_list (ifaces : List Nat) (req : NhAddReq) (st : Ip4State)
    (now hz : Nat)
    (hnd : (st.nh.hash.map Prod.fst).Nodup)
    (hcons : ∀ kv ∈ st.nh.hash, (st.nh.arr kv.2).ip = kv.1)
    (hflags : ∀ kv ∈ st.nh.hash,
      (st.nh.arr kv.2).flags &&& (BR_IP4_NH_F_STATIC ||| BR_IP4_NH_F_REACHABLE)
        = BR_IP4_NH_F_STATIC ||| BR_IP4_NH_F_REACHABLE)
    (hok : (nh4_add ifaces req st).1 = 0) :
    ((nh4_list (nh4_add ifaces req st).2.nh now hz).nhs.filter
        (fun r => r.host == req.host)).length = 1 ∧
    ∀ r ∈ (nh4_list (nh4_add ifaces req st).2.nh now hz).nhs, r.host = req.host →
      r.iface_id = req.iface_id ∧ r.mac = req.mac ∧
      r.flags &&& (BR_IP4_NH_F_STATIC ||| BR_IP4_NH_F_REACHABLE)
        = BR_IP4_NH_F_STATIC ||| BR_IP4_NH_F_REACHABLE := by
  by_cases h0 : req.host = 0
  · exfalso
    simp [nh4_add, h0, EINVAL] at hok
  by_cases hifb : ifaces.contains req.iface_id = true
  case neg =>
    exfalso
    have hf : ifaces.contains req.iface_id = false := Bool.eq_false_iff.mpr hifb
    have hnm : req.iface_id ∉ ifaces := by simpa using hf
    simp [nh4_add, h0, hnm, ENODEV] at hok
  cases hl : ip4_nexthop_lookup st.nh req.host with
  | some idx =>
    have hred := nh4_add_present ifaces req st idx h0 hifb hl
    by_cases hg : (req.exist_ok && req.iface_id == (st.nh.arr idx).iface_id
        && req.mac == (st.nh.arr idx).lladdr) = true
    case neg =>
      exfalso
      rw [hred, if_neg hg] at hok
      simp [EEXIST] at hok
    have hst2 : (nh4_add ifaces req st).2 = st := by rw [hred, if_pos hg]
    have hg' : req.exist_ok = true ∧ req.iface_id = (st.nh.arr idx).iface_id ∧
        req.mac = (st.nh.arr idx).lladdr := by
      simpa [Bool.and_eq_true, beq_iff_eq, and_assoc] using hg
    have honce := nh_list_once st.nh req.host idx now hz hnd hcons
      (hashLookup_mem _ _ _ hl)
    rw [hst2]
    refine ⟨honce.1, fun r hr hrh => ?_⟩
    have hrec := honce.2 r hr hrh
    rw [hrec]
    exact ⟨(hg'.2.1).symm, (hg'.2.2).symm,
      hflags (req.host, idx) (hashLookup_mem _ _ _ hl)⟩
  | none =>
    by_cases hcap : st.nh.hash.length ≥ MAX_NEXT_HOPS
    · exfalso
      simp only [nh4_add, if_neg h0, hifb, Bool.not_true, Bool.false_eq_true, if_false,
        hl, ip4_nexthop_lookup_add, if_pos hcap] at hok
      simp [ENOSPC] at hok
    by_cases hroute : st.routes.any (fun r => r.dest == req.host && r.depth == 32) = true
    · exfalso
      simp only [nh4_add, if_neg h0, hifb, Bool.not_true, Bool.false_eq_true, if_false,
        hl, ip4_nexthop_lookup_add, if_neg hcap, ip4_route_insert, hroute, if_true] at hok
      simp [EEXIST] at hok
    have hcap' : st.nh.hash.length < MAX_NEXT_HOPS := by omega
    have hroute' : st.routes.any (fun r => r.dest == req.host && r.depth == 32) = false :=
      Bool.eq_false_iff.mpr hroute
    obtain ⟨-, hhash, hip, hiface, hmac, hflagsN, harr, -⟩ :=
      nh4_add_fresh ifaces req st h0 hifb hl hcap' hroute'
    have hfresh : freshIdx (st.nh.hash.map Prod.snd) ∉ st.nh.hash.map Prod.snd :=
      freshIdx_not_mem _
    have hnd2 : ((nh4_add ifaces req st).2.nh.hash.map Prod.fst).Nodup := by
      rw [hhash]
      simp only [List.map_append, List.map_cons, List.map_nil]
      rw [List.nodup_append]
      refine ⟨hnd, List.nodup_singleton _, ?_⟩
      intro a ha
      simp only [List.mem_singleton]
      intro hb
      rw [hb] at ha
      exact (hashLookup_none_not_mem _ _ hl) ha
    have hcons2 : ∀ kv ∈ (nh4_add ifaces req st).2.nh.hash,
        ((nh4_add ifaces req st).2.nh.arr kv.2).ip = kv.1 := by
      intro kv hkv
      rw [hhash] at hkv
      rcases List.mem_append.mp hkv with hold | hnew
      · have hne : kv.2 ≠ freshIdx (st.nh.hash.map Prod.snd) := by
          intro hh
          rw [← hh] at hfresh
          exact hfresh (List.mem_map_of_mem Prod.snd hold)
        rw [harr kv.2 hne]
        exact hcons kv hold
      · simp only [List.mem_singleton] at hnew
        rw [hnew]
        exact hip
    have hmem2 : (req.host, freshIdx (st.nh.hash.map Prod.snd))
        ∈ (nh4_add ifaces req st).2.nh.hash := by
      rw [hhash]
      exact List.mem_append_right _ (List.mem_singleton.mpr rfl)
    have honce := nh_list_once (nh4_add ifaces req st).2.nh req.host
      (freshIdx (st.nh.hash.map Prod.snd)) now hz hnd2 hcons2 hmem2
    refine ⟨honce.1, fun r hr hrh => ?_⟩
    have hrec := honce.2 r hr hrh
    rw [hrec]
    refine ⟨hiface, hmac, ?_⟩
    simp only [nhListRecord, hflagsN]
    decide

/-- C1 (code-bug evidence): port_queue_assign is run for port 7 with
`n_rxq = 64` from a single-worker state whose rxq entries for the port
are exactly `{0..32}` (the invariant state left by a previous assignment
with `n_rxq = 33`).  Queue 33 is not previously assigned, so by the
claim it must be appended to the default worker and the resulting
multiset must be `{0..63}`; instead the `1 << queue_id` accumulator
update and the `1 << rxq` membership test are 32-bit int shifts (see
`cShl1`), the bits of queues 31 and 32 alias onto bits 31..63 and 0, and
queue 33 (indeed all of 33..63) is never appended.  The matching worker
predicate makes the single worker the default worker. -/
theorem c1_port_queue_assign_drops_rxq33 :
    33 ∉ (((List.range 33).map (fun q =>
        ({ port_id := 7, queue_id := q, enabled := true } : QueueMap))).map
          QueueMap.queue_id) ∧
    33 ∉ ((port_queue_assign (fun _ => true)
        { port_id := 7, n_rxq := 64, n_txq := 0, rxq_size := 0, txq_size := 0,
          mac := 0, pool := false, configured := false }
        [{ cpu_id := 0,
           rxqs := (List.range 33).map (fun q =>
             { port_id := 7, queue_id := q, enabled := true }),
           txqs := [] }]).2.map (fun w =>
            (w.rxqs.filter (fun q => q.port_id == 7)).map QueueMap.queue_id)).flatten := by
  decide

/-- Witness for C5: adding host 5 with iface 1 and mac 7 to the empty
table and then listing yields exactly one record for host 5. -/
theorem c5_nh4_add_then_list_witness :
    ((nh4_list (nh4_add [1] ⟨5, 1, 7, false⟩ ⟨⟨[], fun _ => zeroNexthop⟩, []⟩).2.nh
        100 10).nhs.filter (fun r => r.host == 5)).length = 1 :=
  (c5_nh4_add_then_list [1] ⟨5, 1, 7, false⟩ ⟨⟨[], fun _ => zeroNexthop⟩, []⟩ 100 10
    (by decide) (by simp) (by simp) (by decide)).1

theorem port_configure_rest_fields (env : PortEnv) (q : PortInfo) (ws : List Worker)
    (rxq_size txq_size : Nat) (info : DevInfo) :
    (port_configure_rest env q ws rxq_size txq_size info).2.1.n_txq = q.n_txq ∧
    (port_configure_rest env q ws rxq_size txq_size info).2.1.n_rxq = q.n_rxq ∧
    (port_configure_rest env q ws rxq_size txq_size info).2.1.rxq_size = q.rxq_size ∧
    (port_configure_rest env q ws rxq_size txq_size info).2.1.txq_size = q.txq_size := by
  refine ⟨?_, ?_, ?_, ?_⟩ <;>
  · dsimp only [port_configure_rest]
    repeat' split
    all_goals rfl

/-- C6: whenever port_configure gets past worker_ensure_default and the
device-info query, the resulting port info has n_txq equal to the current
worker count, n_rxq normalized from 0 to 1, and both ring sizes resolved
from 0 first to the device-info default and then to the DPDK fallback
constant — whatever the later configure, pool or queue-setup calls do. -/
theorem c6_port_configure_defaults (env : PortEnv) (p : PortInfo) (ws ws1 : List Worker)
    (info : DevInfo)
    (hens : worker_ensure_default env ws = .ok ws1)
    (hinfo : env.dev_info = .ok info) :
    (port_configure env p ws).2.1.n_txq = ws1.length ∧
    (port_configure env p ws).2.1.n_rxq = (if p.n_rxq = 0 then 1 else p.n_rxq) ∧
    (port_configure env p ws).2.1.rxq_size =
      (if p.rxq_size ≠ 0 then p.rxq_size
       else if info.default_rxportconf_ring_size ≠ 0 then info.default_rxportconf_ring_size
       else RTE_ETH_DEV_FALLBACK_RX_RINGSIZE) ∧
    (port_configure env p ws).2.1.txq_size =
      (if p.txq_size ≠ 0 then p.txq_size
       else if info.default_txportconf_ring_size ≠ 0 then info.default_txportconf_ring_size
       else RTE_ETH_DEV_FALLBACK_TX_RINGSIZE) := by
  simp only [port_configure, hens, hinfo]
  refine ⟨?_, ?_, ?_, ?_⟩
  all_goals
    first
      | rw [(port_configure_rest_fields env _ _ _ _ info).1]
      | rw [(port_configure_rest_fields env _ _ _ _ info).2.1]
      | rw [(port_configure_rest_fields env _ _ _ _ info).2.2.1]
      | rw [(port_configure_rest_fields env _ _ _ _ info).2.2.2]
  all_goals
    by_cases h1 : p.n_rxq = 0 <;>
    by_cases h2 : p.rxq_size = 0 <;>
    by_cases h3 : info.default_rxportconf_ring_size = 0 <;>
    by_cases h4 : p.txq_size = 0 <;>
    by_cases h5 : info.default_txportconf_ring_size = 0 <;>
    simp [get_rxq_size, get_txq_size, h1, h2, h3, h4, h5]

/-- Witness for C6: one matching worker and a device-info default rx ring
of 100; a port with n_rxq = 0, rxq_size = 0 and txq_size = 7 comes out
with n_txq = 1, n_rxq = 1, rxq_size = 100 and txq_size = 7. -/
theorem c6_port_configure_defaults_witness :
    (port_configure
        ⟨fun _ => true, none, .ok ⟨100, 200, 0, 0⟩, 0, none, fun _ => 0, fun _ => 0,
          0, 0, 0, false, 0, false, 0, none, 0, .ok 1500, 0, .ok 5⟩
        { port_id := 0, n_rxq := 0, n_txq := 9, rxq_size := 0, txq_size := 7,
          mac := 0, pool := false, configured := false }
        [{ cpu_id := 0, rxqs := [], txqs := [] }]).2.1.n_txq = 1 ∧
    (port_configure
        ⟨fun _ => true, none, .ok ⟨100, 200, 0, 0⟩, 0, none, fun _ => 0, fun _ => 0,
          0, 0, 0, false, 0, false, 0, none, 0, .ok 1500, 0, .ok 5⟩
        { port_id := 0, n_rxq := 0, n_txq := 9, rxq_size := 0, txq_size := 7,
          mac := 0, pool := false, configured := false }
        [{ cpu_id := 0, rxqs := [], txqs := [] }]).2.1.n_rxq = 1 ∧
    (port_configure
        ⟨fun _ => true, none, .ok ⟨100, 200, 0, 0⟩, 0, none, fun _ => 0, fun _ => 0,
          0, 0, 0, false, 0, false, 0, none, 0, .ok 1500, 0, .ok 5⟩
        { port_id := 0, n_rxq := 0, n_txq := 9, rxq_size := 0, txq_size := 7,
          mac := 0, pool := false, configured := false }
        [{ cpu_id := 0, rxqs := [], txqs := [] }]).2.1.rxq_size = 100 ∧
    (port_configure
        ⟨fun _ => true, none, .ok ⟨100, 200, 0, 0⟩, 0, none, fun _ => 0, fun _ => 0,
          0, 0, 0, false, 0, false, 0, none, 0, .ok 1500, 0, .ok 5⟩
        { port_id := 0, n_rxq := 0, n_txq := 9, rxq_size := 0, txq_size := 7,
          mac := 0, pool := false, configured := false }
        [{ cpu_id := 0, rxqs := [], txqs := [] }]).2.1.txq_size = 7 :=
  c6_port_configure_defaults
    ⟨fun _ => true, none, .ok ⟨100, 200, 0, 0⟩, 0, none, fun _ => 0, fun _ => 0,
      0, 0, 0, false, 0, false, 0, none, 0, .ok 1500, 0, .ok 5⟩
    { port_id := 0, n_rxq := 0, n_txq := 9, rxq_size := 0, txq_size := 7,
      mac := 0, pool := false, configured := false }
    [{ cpu_id := 0, rxqs := [], txqs := [] }]
    [{ cpu_id := 0, rxqs := [], txqs := [] }]
    ⟨100, 200, 0, 0⟩ rfl rfl

theorem land_lor_ne_zero (a b c : Nat) (h : a &&& c ≠ 0) : a &&& (b ||| c) ≠ 0 := by
  intro hz
  apply h
  apply Nat.eq_of_testBit_eq
  intro i
  have hb := congrArg (fun n => n.testBit i) hz
  simp only [Nat.testBit_and, Nat.testBit_or, Nat.zero_testBit] at hb
  simp only [Nat.testBit_and, Nat.zero_testBit]
  cases ha : a.testBit i <;> cases hc : c.testBit i <;> simp_all

/-- C7: a reconfig whose mask contains SET_Q_SIZE copies the request's
rxq_size field into both the port's rxq_size and its txq_size (the tx
ring size is overwritten from the rx field), and any mask touching queue
counts or queue sizes clears the configured flag — the queue-attribute
absorption step that iface_port_reconfig performs right after the
unplug. -/
theorem c7_absorb_q_size (set_attrs : Nat) (api : ApiPortInfo) (p : PortInfo) :
    (set_attrs &&& BR_PORT_SET_Q_SIZE ≠ 0 →
      (port_absorb_queue_attrs set_attrs api p).rxq_size = api.rxq_size ∧
      (port_absorb_queue_attrs set_attrs api p).txq_size = api.rxq_size) ∧
    (set_attrs &&& (BR_PORT_SET_N_RXQS ||| BR_PORT_SET_N_TXQS ||| BR_PORT_SET_Q_SIZE) ≠ 0 →
      (port_absorb_queue_attrs set_attrs api p).configured = false) := by
  constructor
  · intro hq
    have h56 : set_attrs &&& (BR_PORT_SET_N_RXQS ||| BR_PORT_SET_N_TXQS
        ||| BR_PORT_SET_Q_SIZE) ≠ 0 := by
      rw [show BR_PORT_SET_N_RXQS ||| BR_PORT_SET_N_TXQS ||| BR_PORT_SET_Q_SIZE
          = (BR_PORT_SET_N_RXQS ||| BR_PORT_SET_N_TXQS) ||| BR_PORT_SET_Q_SIZE from rfl]
      exact land_lor_ne_zero _ _ _ hq
    simp only [port_absorb_queue_attrs, if_pos h56]
    split_ifs <;> simp_all
  · intro h56
    simp [port_absorb_queue_attrs, if_pos h56]

/-- Witness for C7: a SET_Q_SIZE-only reconfig with requested rxq_size 77
sets both sizes to 77 and clears configured. -/
theorem c7_absorb_q_size_witness :
    (port_absorb_queue_attrs BR_PORT_SET_Q_SIZE ⟨4, 5, 77, 9, 0⟩
        { port_id := 0, n_rxq := 1, n_txq := 1, rxq_size := 1, txq_size := 2,
          mac := 0, pool := false, configured := true }).rxq_size = 77 ∧
    (port_absorb_queue_attrs BR_PORT_SET_Q_SIZE ⟨4, 5, 77, 9, 0⟩
        { port_id := 0, n_rxq := 1, n_txq := 1, rxq_size := 1, txq_size := 2,
          mac := 0, pool := false, configured := true }).txq_size = 77 ∧
    (port_absorb_queue_attrs BR_PORT_SET_Q_SIZE ⟨4, 5, 77, 9, 0⟩
        { port_id := 0, n_rxq := 1, n_txq := 1, rxq_size := 1, txq_size := 2,
          mac := 0, pool := false, configured := true }).configured = false := by
  have h := c7_absorb_q_size BR_PORT_SET_Q_SIZE ⟨4, 5, 77, 9, 0⟩
    { port_id := 0, n_rxq := 1, n_txq := 1, rxq_size := 1, txq_size := 2,
      mac := 0, pool := false, configured := true }
  exact ⟨(h.1 (by decide)).1, (h.1 (by decide)).2, h.2 (by decide)⟩

/-- C9: a VLAN create or reconfig whose mask contains SET_PARENT or
SET_VLAN, with the requested parent resolving to a PORT interface (and,
on a reconfig, the current parent still registered), returns EADDRINUSE
when the requested (parent_id, vlan_id) key is already in the VLAN hash,
leaving the state untouched and emitting no device-driver call — so a
duplicate create has no DDF side effects. -/
theorem c9_vlan_duplicate_key (reg : Registry) (env : VlanEnv) (self_id : Nat)
    (ctx0 : VlanCtx) (set_attrs flags mtu vrf_id : Nat) (next : GrIfaceInfoVlan)
    (pr : IfaceRec)
    (hmask : set_attrs &&& (GR_VLAN_SET_PARENT ||| GR_VLAN_SET_VLAN) ≠ 0)
    (hfp : iface_from_id reg next.parent_id = some pr)
    (hpt : pr.type_id = GR_IFACE_TYPE_PORT)
    (hcur : set_attrs ≠ IFACE_SET_ALL → (iface_from_id reg ctx0.cur.parent_id).isSome = true)
    (hdup : (hashLookup ctx0.vlan_hash (next.parent_id, next.vlan_id)).isSome = true) :
    iface_vlan_reconfig reg env self_id ctx0 set_attrs flags mtu vrf_id next
      = (-(EADDRINUSE : Int), ctx0, []) := by
  have hgp : get_parent_port_id reg next.parent_id = .ok pr.port_id := by
    simp [get_parent_port_id, hfp, hpt]
  by_cases hall : set_attrs = IFACE_SET_ALL
  · have hrc : (set_attrs != IFACE_SET_ALL) = false := by simp [hall]
    simp only [iface_vlan_reconfig, hrc, Bool.false_and, Bool.false_eq_true, if_false,
      hfp, if_pos hmask, hgp, hdup, if_true]
  · have hrc : (set_attrs != IFACE_SET_ALL) = true := by simp [hall]
    obtain ⟨v, hv⟩ := Option.isSome_iff_exists.mp (hcur hall)
    simp only [iface_vlan_reconfig, hrc, hv, Option.isNone_some, Bool.and_false,
      Bool.false_eq_true, if_false, hfp, if_pos hmask, hgp, hdup, if_true]

/-- Witness for C9: an initial create of VLAN (parent 1, vlan 100) while
the key is already mapped returns EADDRINUSE with no state change and no
DDF effects. -/
theorem c9_vlan_duplicate_key_witness :
    iface_vlan_reconfig [(1, ⟨GR_IFACE_TYPE_PORT, 0⟩)] ⟨fun _ _ _ => 0, 0, 0⟩ 9
        { vlan_hash := [((1, 100), 2)], cur := ⟨1, 100, 0⟩, flags := 0, mtu := 0,
          vrf_id := 0, subifs := [] }
        IFACE_SET_ALL 0 0 0 ⟨1, 100, 0⟩
      = (-(EADDRINUSE : Int),
          { vlan_hash := [((1, 100), 2)], cur := ⟨1, 100, 0⟩, flags := 0, mtu := 0,
            vrf_id := 0, subifs := [] }, []) :=
  c9_vlan_duplicate_key [(1, ⟨GR_IFACE_TYPE_PORT, 0⟩)] ⟨fun _ _ _ => 0, 0, 0⟩ 9
    { vlan_hash := [((1, 100), 2)], cur := ⟨1, 100, 0⟩, flags := 0, mtu := 0,
      vrf_id := 0, subifs := [] }
    IFACE_SET_ALL 0 0 0 ⟨1, 100, 0⟩ ⟨GR_IFACE_TYPE_PORT, 0⟩
    (by decide) rfl rfl (fun h => absurd rfl h) rfl

theorem mem_arrdelswap (l : List QueueMap) (i : Nat) (q : QueueMap)
    (h : q ∈ arrdelswap l i) : q ∈ l := by
  unfold arrdelswap at h
  have h1 : q ∈ l.set i
      (l.getD (l.length - 1) { port_id := 0, queue_id := 0, enabled := false }) :=
    List.dropLast_subset _ h
  rcases List.mem_or_eq_of_mem_set h1 with h2 | h2
  · exact h2
  · subst h2
    cases l with
    | nil => simp at h
    | cons a rest =>
      have hlen : (a :: rest).length - 1 < (a :: rest).length := by simp
      rw [List.getD_eq_getElem _ _ hlen]
      exact List.getElem_mem hlen

theorem mem_txq_purge_go (pid : Nat) (fuel : Nat) :
    ∀ (l : List QueueMap) (i : Nat) (q : QueueMap), q ∈ txq_purge_go pid fuel l i → q ∈ l := by
  induction fuel with
  | zero => intro l i q h; simpa [txq_purge_go] using h
  | succ fuel ih =>
    intro l i q h
    simp only [txq_purge_go] at h
    split at h
    · split at h
      · exact mem_arrdelswap _ _ _ (ih _ _ _ h)
      · exact ih _ _ _ h
    · exact h

theorem mem_rxq_scan_go (pid n_rxq : Nat) (fuel : Nat) :
    ∀ (l : List QueueMap) (i bits : Nat) (q : QueueMap),
      q ∈ (rxq_scan_go pid n_rxq fuel l i bits).1 → q ∈ l := by
  induction fuel with
  | zero => intro l i bits q h; simpa [rxq_scan_go] using h
  | succ fuel ih =>
    intro l i bits q h
    simp only [rxq_scan_go] at h
    split at h
    · split at h
      · split at h
        · exact ih _ _ _ _ h
        · exact mem_arrdelswap _ _ _ (ih _ _ _ _ h)
      · exact ih _ _ _ _ h
    · exact h

theorem setEnabledIn_false (pid : Nat) (l : List QueueMap) (q : QueueMap)
    (h : q ∈ setEnabledIn pid false l) (hpid : q.port_id = pid) : q.enabled = false := by
  simp only [setEnabledIn, List.mem_map] at h
  obtain ⟨q0, hq0, hq⟩ := h
  by_cases hp : q0.port_id = pid
  · rw [← hq]
    simp [hp]
  · rw [if_neg hp] at hq
    rw [hq] at hp
    exact absurd hpid hp

theorem port_unplug_disabled (pid : Nat) (ws : List Worker) :
    port_disabled pid (port_unplug pid ws) := by
  intro w hw q hq hqpid
  simp only [port_unplug, List.mem_map] at hw
  obtain ⟨w0, hw0, hww⟩ := hw
  rcases hq with hq | hq
  · rw [← hww] at hq
    exact setEnabledIn_false pid w0.rxqs q hq hqpid
  · rw [← hww] at hq
    exact setEnabledIn_false pid w0.txqs q hq hqpid

theorem pqa_pass1_disabled (sm : Worker → Bool) (pid n_rxq x : Nat) :
    ∀ (ws : List Worker) (idx txq bits : Nat) (dflt : Option Nat),
      port_disabled x ws →
      port_disabled x (pqa_pass1 sm pid n_rxq ws idx txq bits dflt).1 := by
  intro ws
  induction ws with
  | nil =>
    intro idx txq bits dflt _ w hw
    simp [pqa_pass1] at hw
  | cons w rest ih =>
    intro idx txq bits dflt h w' hw' q hq hqpid
    simp only [pqa_pass1, List.mem_cons] at hw'
    rcases hw' with hw' | hw'
    · subst hw'
      rcases hq with hq | hq
      · have hqm : q ∈ w.rxqs := mem_rxq_scan_go pid n_rxq _ _ _ _ _ hq
        exact h w (List.mem_cons_self _ _) q (Or.inl hqm) hqpid
      · rcases List.mem_append.mp hq with hq | hq
        · have hqm : q ∈ w.txqs := mem_txq_purge_go pid _ _ _ _ hq
          exact h w (List.mem_cons_self _ _) q (Or.inr hqm) hqpid
        · simp only [List.mem_singleton] at hq
          rw [hq]
    · exact ih (idx + 1) (txq + 1) _ _
        (fun w2 hw2 => h w2 (List.mem_cons_of_mem _ hw2)) w' hw' q hq hqpid

theorem pqa_missing_disabled (pid n_rxq bits : Nat) (q : QueueMap)
    (h : q ∈ pqa_missing pid n_rxq bits) : q.enabled = false := by
  simp only [pqa_missing, List.mem_filterMap] at h
  obtain ⟨rxq, _, hq⟩ := h
  by_cases hb : bits &&& cShl1 rxq = 0
  · rw [if_pos hb] at hq
    injection hq with hq
    rw [← hq]
  · rw [if_neg hb] at hq
    cases hq

theorem listModify_disabled (x : Nat) (f : Worker → Worker) :
    ∀ ws : List Worker,
      port_disabled x ws →
      (∀ w ∈ ws,
        (∀ q : QueueMap, (q ∈ w.rxqs ∨ q ∈ w.txqs) → q.port_id = x → q.enabled = false) →
        (∀ q : QueueMap, (q ∈ (f w).rxqs ∨ q ∈ (f w).txqs) → q.port_id = x →
          q.enabled = false)) →
      ∀ d : Nat, port_disabled x (listModify f d ws) := by
  intro ws
  induction ws with
  | nil => intro _ _ d w hw; cases d <;> cases hw
  | cons a rest ih =>
    intro hws hf d
    cases d with
    | zero =>
      intro w hw q hq hqpid
      rcases List.mem_cons.mp hw with hw | hw
      · subst hw
        exact hf a (List.mem_cons_self _ _)
          (fun q2 hq2 => hws a (List.mem_cons_self _ _) q2 hq2) q hq hqpid
      · exact hws w (List.mem_cons_of_mem _ hw) q hq hqpid
    | succ d =>
      intro w hw q hq hqpid
      rcases List.mem_cons.mp hw with hw | hw
      · exact hws a (List.mem_cons_self _ _) q (hw ▸ hq) hqpid
      · exact ih (fun w2 hw2 => hws w2 (List.mem_cons_of_mem _ hw2))
          (fun w2 hw2 => hf w2 (List.mem_cons_of_mem _ hw2)) d w hw q hq hqpid

theorem listModify_disabled_applied (x : Nat) (f : Worker → Worker) (ws : List Worker)
    (hws : port_disabled x ws)
    (hf : ∀ w ∈ ws,
      (∀ q : QueueMap, (q ∈ w.rxqs ∨ q ∈ w.txqs) → q.port_id = x → q.enabled = false) →
      (∀ q : QueueMap, (q ∈ (f w).rxqs ∨ q ∈ (f w).txqs) → q.port_id = x → q.enabled = false))
    (d : Nat) : port_disabled x (listModify f d ws) :=
  listModify_disabled x f ws hws hf d

theorem port_queue_assign_disabled (sm : Worker → Bool) (p : PortInfo) (ws : List Worker)
    (x : Nat) (h : port_disabled x ws) :
    port_disabled x (port_queue_assign sm p ws).2 := by
  dsimp only [port_queue_assign]
  have hpass := pqa_pass1_disabled sm p.port_id p.n_rxq x ws 0 0 0 none h
  split
  · exact hpass
  · apply listModify_disabled_applied
    · exact hpass
    · intro w _ hwd q hq hqpid
      rcases hq with hq | hq
      · rcases List.mem_append.mp hq with hq | hq
        · exact hwd q (Or.inl hq) hqpid
        · exact pqa_missing_disabled _ _ _ _ hq
      · exact hwd q (Or.inr hq) hqpid

theorem worker_ensure_disabled (env : PortEnv) (ws ws1 : List Worker) (x : Nat)
    (h : worker_ensure_default env ws = .ok ws1) (hd : port_disabled x ws) :
    port_disabled x ws1 := by
  unfold worker_ensure_default at h
  split at h
  · injection h with h
    subst h
    exact hd
  · split at h
    · injection h with h
      subst h
      intro w hw q hq hqpid
      rcases List.mem_append.mp hw with hw | hw
      · exact hd w hw q hq hqpid
      · simp only [List.mem_singleton] at hw
        subst hw
        rcases hq with hq | hq <;> simp at hq
    · cases h

theorem port_configure_rest_disabled (env : PortEnv) (q : PortInfo) (ws : List Worker)
    (rx tx : Nat) (info : DevInfo) (x : Nat) (h : port_disabled x ws) :
    port_disabled x (port_configure_rest env q ws rx tx info).2.2 := by
  dsimp only [port_configure_rest]
  split
  · exact h
  · split
    · exact h
    · split
      · exact h
      · split
        · exact h
        · split
          case _ heq =>
            have hh := port_queue_assign_disabled env.socket_match
              { q with pool := true } ws x h
            rw [heq] at hh
            exact hh
          case _ heq =>
            have hh := port_queue_assign_disabled env.socket_match
              { q with pool := true } ws x h
            rw [heq] at hh
            exact hh

theorem port_configure_disabled (env : PortEnv) (p : PortInfo) (ws : List Worker) (x : Nat)
    (h : port_disabled x ws) :
    port_disabled x (port_configure env p ws).2.2 := by
  unfold port_configure
  cases hens : worker_ensure_default env ws with
  | error e => exact h
  | ok ws1 =>
    have h1 := worker_ensure_disabled env ws ws1 x hens h
    cases hinfo : env.dev_info with
    | error e => exact h1
    | ok info => exact port_configure_rest_disabled env _ ws1 _ _ info x h1

/-- C10: whenever iface_port_reconfig returns an error (every error exit
comes after the initial unplug, which is modelled from the spec as
always succeeding), the function has not reached port_plug, and every
queue map for the port across all workers is still disabled; queue maps
are re-enabled only on the success return. -/
theorem c10_port_reconfig_error_unplugged (env : PortEnv) (set_attrs : Nat) (ifc0 : Iface)
    (p0 : PortInfo) (api : ApiPortInfo) (ws0 : List Worker)
    (herr : (iface_port_reconfig env set_attrs ifc0 p0 api ws0).1 < 0) :
    port_disabled p0.port_id (iface_port_reconfig env set_attrs ifc0 p0 api ws0).2.2.2 := by
  have hd : port_disabled p0.port_id (port_unplug p0.port_id ws0) := port_unplug_disabled _ _
  have hcases : (iface_port_reconfig env set_attrs ifc0 p0 api ws0).1 = 0 ∨
      port_disabled p0.port_id (iface_port_reconfig env set_attrs ifc0 p0 api ws0).2.2.2 := by
    simp only [iface_port_reconfig]
    split
    · right; exact hd
    · generalize hR : (if (!(port_absorb_queue_attrs set_attrs api p0).configured) = true then
          port_configure env (port_absorb_queue_attrs set_attrs api p0)
            (port_unplug p0.port_id ws0)
        else (0, port_absorb_queue_attrs set_attrs api p0, port_unplug p0.port_id ws0)) = R
      have hRd : port_disabled p0.port_id R.2.2 := by
        rw [← hR]
        split
        · exact port_configure_disabled _ _ _ _ hd
        · exact hd
      split
      · right; exact hRd
      · split
        · right; exact hRd
        · split
          · right; exact hRd
          · split
            · right; exact hRd
            · left; rfl
  rcases hcases with h0 | hdis
  · rw [h0] at herr
    exact absurd herr (by omega)
  · exact hdis

/-- Witness for C10: with the device-stop call failing (-5), a reconfig
of an unconfigured port returns an error and every queue map of the port
stays disabled, including one that was enabled before the call. -/
theorem c10_port_reconfig_error_unplugged_witness :
    port_disabled 7 (iface_port_reconfig
        ⟨fun _ => true, none, .ok ⟨0, 0, 0, 0⟩, 0, none, fun _ => 0, fun _ => 0,
          -5, 0, 0, false, 0, false, 0, none, 0, .ok 0, 0, .ok 0⟩
        0 ⟨0, 0, 0, 0⟩
        { port_id := 7, n_rxq := 1, n_txq := 1, rxq_size := 1, txq_size := 1,
          mac := 0, pool := false, configured := false }
        ⟨0, 0, 0, 0, 0⟩
        [{ cpu_id := 0,
           rxqs := [{ port_id := 7, queue_id := 0, enabled := true }], txqs := [] }]).2.2.2 :=
  c10_port_reconfig_error_unplugged
    ⟨fun _ => true, none, .ok ⟨0, 0, 0, 0⟩, 0, none, fun _ => 0, fun _ => 0,
      -5, 0, 0, false, 0, false, 0, none, 0, .ok 0, 0, .ok 0⟩
    0 ⟨0, 0, 0, 0⟩
    { port_id := 7, n_rxq := 1, n_txq := 1, rxq_size := 1, txq_size := 1,
      mac := 0, pool := false, configured := false }
    ⟨0, 0, 0, 0, 0⟩
    [{ cpu_id := 0,
       rxqs := [{ port_id := 7, queue_id := 0, enabled := true }], txqs := [] }]
    (by decide)
